import Mathlib

/-!
# lambda-email: routing rules, dispatch and address rewriting

A shallow embedding of `main.go` and `config.go` of `psanford/lambda-email`.

* Go strings are Lean `String`s; the `strings` helpers the code calls
  (`HasPrefix`, `HasSuffix`, `TrimPrefix`, `TrimSuffix`, `SplitN`, `Split`)
  are written out on character lists.
* Library calls whose behaviour is not defined in this repository
  (`net/mail.ParseAddress`, `regexp.Compile`/`MatchString`, `strings.ToLower`,
  `enmime`, `encoding/json`, `fmt` verbs) are fields of `Lib`.
* The package-level collaborators (`sendEmail`, `s3GetObj`, `s3PutObj`,
  `s3CopyObj`, `s3GetObjReq`, `snsPublish`) are fields of `Env`, acting on an
  external state; every call is also appended to a trace.
-/

namespace LambdaEmail

/-! ## Data model (`config.go`, `net/mail`) -/

/-- The `Route` struct of `config.go`, with the `Drop` field that `main.go`
and `main_test.go` read. -/
structure Route where
  Src : String
  Dst : String
  SNS : String
  Forward : Bool
  AllowSuspectMessages : Bool
  Drop : Bool
  deriving DecidableEq, Repr

/-- The `Bucket` struct of `config.go`. -/
structure Bucket where
  Name : String
  MsgPrefix : String
  ForwardMetaPrefix : String
  OutboxPrefix : String
  deriving DecidableEq, Repr

/-- The `Config` struct of `config.go`. -/
structure Config where
  Domain : String
  PrivateAccountAddress : String
  OutboundAddress : String
  SSMPrefix : String
  AwsRegion : String
  Bucket : Bucket
  Routes : List Route
  deriving DecidableEq, Repr

/-- The `net/mail.Address` struct: display name and address-only part. -/
structure MailAddress where
  Name : String
  Address : String
  deriving DecidableEq, Repr

/-- A compiled `*regexp.Regexp`, seen through `MatchString`. -/
structure Regexp where
  MatchString : String → Bool

/-! ## `strings` helpers -/

/-- Go `strings.HasPrefix(s, p)`. -/
def HasPrefix (s p : String) : Bool := p.data.isPrefixOf s.data

/-- Go `strings.HasSuffix(s, p)`. -/
def HasSuffix (s p : String) : Bool := p.data.isSuffixOf s.data

/-- Go `strings.TrimPrefix(s, p)`. -/
def TrimPrefix (s p : String) : String :=
  if HasPrefix s p then String.mk (s.data.drop p.data.length) else s

/-- Go `strings.TrimSuffix(s, p)`. -/
def TrimSuffix (s p : String) : String :=
  if HasSuffix s p then String.mk (s.data.take (s.data.length - p.data.length)) else s

/-- The constant `privateAddrPlaceholder` of `main.go`. -/
def privateAddrPlaceholder : String := "__PRIVATE_ADDRESS__"

/-- The variable `awsMailerDaemon` of `main.go`. -/
def awsMailerDaemon : String := "mailer-daemon@amazonses.com"

/-- Go `strings.SplitN(s, "@", 2)` when it yields two parts: the text before the
first `@` and the text after it; `none` when `s` holds no `@` (one part). -/
def splitFirstAt : List Char → Option (List Char × List Char)
  | [] => none
  | c :: cs =>
    if c = '@' then some ([], cs)
    else match splitFirstAt cs with
      | some (a, b) => some (c :: a, b)
      | none => none

/-- Go `strings.Split(s, "@")` on the characters of `s`: never empty. -/
def splitAllAt : List Char → List (List Char)
  | [] => [[]]
  | c :: cs =>
    if c = '@' then [] :: splitAllAt cs
    else match splitAllAt cs with
      | [] => [[c]]
      | p :: ps => (c :: p) :: ps

/-- Go `unicode.IsSpace`, the characters `strings.TrimSpace` removes. -/
def isSpace (c : Char) : Bool :=
  let n := c.toNat
  (9 ≤ n && n ≤ 13) || n = 0x20 || n = 0x85 || n = 0xA0 || n = 0x1680 ||
  (0x2000 ≤ n && n ≤ 0x200A) || n = 0x2028 || n = 0x2029 || n = 0x202F ||
  n = 0x205F || n = 0x3000

/-- Drop from the right end while `p` holds. -/
def dropRightWhile (p : Char → Bool) (l : List Char) : List Char :=
  (l.reverse.dropWhile p).reverse

/-- Go `strings.TrimSpace`. -/
def TrimSpace (s : String) : String :=
  String.mk (dropRightWhile isSpace (s.data.dropWhile isSpace))

/-- Go `strings.TrimLeft(s, "<")`. -/
def TrimLeftLt (s : String) : String := String.mk (s.data.dropWhile (· = '<'))

/-- Go `strings.TrimRight(s, ">")`. -/
def TrimRightGt (s : String) : String := String.mk (dropRightWhile (· = '>') s.data)

/-- The function `trimBrackets`: `strings.Trim(s, "<>")`. -/
def trimBrackets (s : String) : String :=
  String.mk (dropRightWhile (fun c => c = '<' || c = '>')
    (s.data.dropWhile (fun c => c = '<' || c = '>')))

/-- The function `strList`: every entry space-trimmed. -/
def strList (strs : List String) : List String := strs.map TrimSpace

/-- One character matched by the class `[^a-zA-Z0-9]` of `replaceRegex`. -/
def replaceRegexClass (c : Char) : Bool :=
  !(('a' ≤ c && c ≤ 'z') || ('A' ≤ c && c ≤ 'Z') || ('0' ≤ c && c ≤ '9'))

/-- The scan of `replaceRegex.ReplaceAllString` for `[^a-zA-Z0-9]+`: `inRun` says
that the previous character belonged to a match, whose replacement is already
written; a character inside the class opens a match (and writes `repl`) or
extends the open one, any other character is copied. -/
def replaceRuns (repl : List Char) : Bool → List Char → List Char
  | _, [] => []
  | inRun, c :: cs =>
    if replaceRegexClass c then
      if inRun then replaceRuns repl true cs else repl ++ replaceRuns repl true cs
    else c :: replaceRuns repl false cs

/-- The call `replaceRegex.ReplaceAllString(src, repl)` with
`replaceRegex = regexp.MustCompile("[^a-zA-Z0-9]+")`, for a `repl` without
`$`: every maximal run of characters outside `[a-zA-Z0-9]` becomes
`repl`. -/
def replaceRegexReplaceAllString (src repl : String) : String :=
  String.mk (replaceRuns repl.data false src.data)

/-- The sanitising step of `forwardToGmail`:
`replaceRegex.ReplaceAllString(parts[0], "_")`. -/
def Sanitize (x : String) : String := replaceRegexReplaceAllString x "_"

/-- The method `Config.PrivateAccountDomain`: the last part of the private
address split on `@`. -/
def Config.PrivateAccountDomain (c : Config) : String :=
  String.mk ((splitAllAt c.PrivateAccountAddress.data).getLast?.getD [])

/-- The method `Config.PrivateAccountMailbox`: the first part of the private
address split on `@`. -/
def Config.PrivateAccountMailbox (c : Config) : String :=
  String.mk ((splitAllAt c.PrivateAccountAddress.data).head?.getD [])

/-! ## Events, MIME values and records -/

/-- The fields of `events.SimpleEmailRecord` that the code reads. -/
structure Record where
  /-- Field `SES.Mail.MessageID`. -/
  MessageID : String
  /-- Field `SES.Mail.Timestamp.String()`. -/
  Timestamp : String
  /-- Field `SES.Mail.CommonHeaders.Subject`. -/
  Subject : String
  /-- Field `SES.Mail.CommonHeaders.To`. -/
  To : List String
  /-- Field `SES.Mail.CommonHeaders.From`. -/
  From : List String
  /-- Field `SES.Mail.CommonHeaders.Date`. -/
  Date : String
  /-- Field `SES.Mail.CommonHeaders.MessageID`. -/
  HeaderMessageID : String
  /-- Field `SES.Receipt.Recipients`. -/
  Recipients : List String
  /-- Field `SES.Receipt.SpamVerdict.Status`. -/
  SpamVerdict : String
  /-- Field `SES.Receipt.DKIMVerdict.Status`. -/
  DKIMVerdict : String
  /-- Field `SES.Receipt.SPFVerdict.Status`. -/
  SPFVerdict : String
  /-- Field `SES.Receipt.VirusVerdict.Status`. -/
  VirusVerdict : String
  deriving DecidableEq, Repr

/-- The struct `snsmsg.Msg`. -/
structure Msg where
  ID : String
  From : List String
  To : List String
  Subject : String
  Date : String
  PresignedURL : String
  deriving DecidableEq, Repr

/-- The struct `forwardInfo`. -/
structure forwardInfo where
  OriginalMessageID : String
  SESID : String
  ForwardedID : String
  deriving DecidableEq, Repr

/-- The fields of an `enmime.Part` that the code reads. -/
structure Part where
  Content : String
  ContentType : String
  FileName : String
  ContentID : String
  deriving DecidableEq, Repr

/-- The fields of an `enmime.Envelope` that the code reads. -/
structure Envelope where
  Text : String
  HTML : String
  Attachments : List Part
  Inlines : List Part
  OtherParts : List Part
  GetHeader : String → String

/-- What the calls on an `enmime.MailBuilder` have recorded. -/
structure MailBuilder where
  From : MailAddress
  To : List MailAddress
  Subject : String
  Text : String
  HTML : String
  Attachments : List Part
  Inlines : List Part
  Headers : List (String × String)
  deriving DecidableEq, Repr

/-- The value `enmime.Builder()`. -/
def Builder : MailBuilder :=
  { From := ⟨"", ""⟩, To := [], Subject := "", Text := "", HTML := "",
    Attachments := [], Inlines := [], Headers := [] }

/-- The struct `ses.SendRawEmailInput`. -/
structure SendRawEmailInput where
  Destinations : List String
  Data : String
  Source : String
  deriving DecidableEq, Repr

/-- The result of a function returning a Go `error`: `nil`, an error, or a
run-time panic. -/
inductive Outcome where
  | nil
  | err (msg : String)
  | panic
  deriving DecidableEq, Repr

/-! ## Library functions the code calls -/

/-- The pure library functions used by the routing code, whose behaviour is
fixed outside this repository. -/
structure Lib where
  /-- Library `net/mail.ParseAddress`: the parsed address, or the parse error. -/
  ParseAddress : String → Except String MailAddress
  /-- Library `regexp.Compile`: the compiled expression, or the compile error. -/
  Compile : String → Except String Regexp
  /-- Library `strings.ToLower`. -/
  ToLower : String → String
  /-- The `%q` verb of `fmt`. -/
  Quote : String → String
  /-- Library `path.Join`. -/
  PathJoin : List String → String
  /-- Library `enmime.ReadEnvelope` on the bytes of a stored message. -/
  ReadEnvelope : String → Except String Envelope
  /-- Library `MailBuilder.Build`: `none` when the part tree is built. -/
  Build : MailBuilder → Option String
  /-- Library `Part.Encode` of the built tree into a buffer. -/
  Encode : MailBuilder → Except String String
  /-- Library `json.MarshalIndent(record, "", "  ")`, its error dropped as in the source. -/
  MarshalIndentRecord : Record → String
  /-- Library `json.Marshal` of a `snsmsg.Msg`. -/
  MarshalMsg : Msg → Except String String
  /-- Library `json.Marshal` of a `forwardInfo`. -/
  MarshalForwardInfo : forwardInfo → Except String String
  /-- Library `json.Decoder.Decode` into a zero `forwardInfo`: the value left in it and
  the error. -/
  DecodeForwardInfo : String → forwardInfo × Option String

/-! ## `Route.Match` (`main.go`) -/

/-- The loop over `toHeader` in `Route.Match`: the first entry that parses and
passes the destination test sets `match` and breaks. -/
def matchLoop (lib : Lib) (dstRe : Option Regexp) (dst : String) : List String → Bool
  | [] => false
  | toAddr :: rest =>
    match lib.ParseAddress toAddr with
    | .ok addr =>
      match dstRe with
      | some re => if re.MatchString addr.Address then true else matchLoop lib dstRe dst rest
      | none => if addr.Address = dst then true else matchLoop lib dstRe dst rest
    | .error _ => matchLoop lib dstRe dst rest

/-- The part of `Route.Match` after the source pattern is settled: the source
test, then the destination loop. -/
def matchTail (lib : Lib) (srcRe dstRe : Option Regexp) (src dst : String)
    (toHeader : List String) (frm : String) : Bool × Option String :=
  let srcOk : Bool :=
    match srcRe with
    | some re => re.MatchString frm
    | none => decide (src = frm)
  if !srcOk then (false, none)
  else (matchLoop lib dstRe dst toHeader, none)

/-- The method `(r *Route) Match(toHeader []string, from string) (bool, error)`.
`dstRe` is declared and tested by the source but never assigned, so it is
`none` here. -/
def Route.Match (lib : Lib) (conf : Config) (r : Route) (toHeader : List String)
    (frm : String) : Bool × Option String :=
  let src := if r.Src = privateAddrPlaceholder then conf.PrivateAccountAddress else r.Src
  let dst := if r.Dst = privateAddrPlaceholder then conf.PrivateAccountAddress else r.Dst
  let dstRe : Option Regexp := none
  if HasPrefix src "/" && HasSuffix src "/" then
    let src1 := TrimSuffix (TrimPrefix src "/") "/"
    match lib.Compile src1 with
    | .error err =>
      (false, some ("src regexp compile err for " ++ r.Src ++ ": " ++ err))
    | .ok srcRe => matchTail lib (some srcRe) dstRe src1 dst toHeader frm
  else matchTail lib none dstRe src dst toHeader frm

/-- A string is wrapped in `/…/` when it begins and ends with a slash, the test
`Route.Match` applies to `src`. -/
def wrapped (s : String) : Bool := HasPrefix s "/" && HasSuffix s "/"

/-- Some entry of `toHeader` parses as a mail address whose address-only part
satisfies `p`. -/
def someParsedTo (lib : Lib) (toHeader : List String) (p : String → Prop) : Prop :=
  ∃ t ∈ toHeader, ∃ a, lib.ParseAddress t = .ok a ∧ p a.Address

/-! ## Collaborators and the trace of their calls -/

/-- One call of a package-level collaborator variable of `main.go`. -/
inductive Call where
  | sendEmail (input : SendRawEmailInput)
  | s3GetObj (Bucket Key : String)
  | s3PutObj (Bucket Key Body : String)
  | s3CopyObj (Bucket CopySource Key : String)
  | s3GetObjReq (Bucket Key : String)
  | snsPublish (Message TopicArn : String)
  deriving DecidableEq, Repr

/-- The package-level collaborator variables of `main.go`, as functions on an
external state `σ` (the mail service, the blob store, the topic service). -/
structure Env (σ : Type) where
  /-- Variable `sendEmail`: the `MessageId` pointer of the output, or the error. -/
  sendEmail : SendRawEmailInput → σ → Except String (Option String) × σ
  /-- Variable `s3GetObj` by bucket and key: the body, or the error. -/
  s3GetObj : String → String → σ → Except String String × σ
  /-- Variable `s3PutObj` by bucket, key and body: the error, if any. -/
  s3PutObj : String → String → String → σ → Option String × σ
  /-- Variable `s3CopyObj` by bucket, copy source and key: the error, if any. -/
  s3CopyObj : String → String → String → σ → Option String × σ
  /-- Variable `s3GetObjReq` followed by `Presign(5 * time.Minute)`: the URL, or the error. -/
  s3GetObjReq : String → String → σ → Except String String × σ
  /-- Variable `snsPublish` by message and topic: the error, if any. -/
  snsPublish : String → String → σ → Option String × σ

/-- The external state together with the calls made so far, oldest first. -/
structure World (σ : Type) where
  ext : σ
  trace : List Call

variable {σ : Type}

/-- Call `sendEmail` and record it. -/
def callSendEmail (env : Env σ) (i : SendRawEmailInput) (w : World σ) :
    Except String (Option String) × World σ :=
  ((env.sendEmail i w.ext).1, ⟨(env.sendEmail i w.ext).2, w.trace ++ [Call.sendEmail i]⟩)

/-- Call `s3GetObj` and record it. -/
def callGetObj (env : Env σ) (bucket key : String) (w : World σ) :
    Except String String × World σ :=
  ((env.s3GetObj bucket key w.ext).1,
    ⟨(env.s3GetObj bucket key w.ext).2, w.trace ++ [Call.s3GetObj bucket key]⟩)

/-- Call `s3PutObj` and record it. -/
def callPutObj (env : Env σ) (bucket key body : String) (w : World σ) :
    Option String × World σ :=
  ((env.s3PutObj bucket key body w.ext).1,
    ⟨(env.s3PutObj bucket key body w.ext).2, w.trace ++ [Call.s3PutObj bucket key body]⟩)

/-- Call `s3CopyObj` and record it. -/
def callCopyObj (env : Env σ) (bucket source key : String) (w : World σ) :
    Option String × World σ :=
  ((env.s3CopyObj bucket source key w.ext).1,
    ⟨(env.s3CopyObj bucket source key w.ext).2, w.trace ++ [Call.s3CopyObj bucket source key]⟩)

/-- Call `s3GetObjReq`, presign, and record it. -/
def callGetObjReq (env : Env σ) (bucket key : String) (w : World σ) :
    Except String String × World σ :=
  ((env.s3GetObjReq bucket key w.ext).1,
    ⟨(env.s3GetObjReq bucket key w.ext).2, w.trace ++ [Call.s3GetObjReq bucket key]⟩)

/-- Call `snsPublish` and record it. -/
def callPublish (env : Env σ) (message topic : String) (w : World σ) :
    Option String × World σ :=
  ((env.snsPublish message topic w.ext).1,
    ⟨(env.snsPublish message topic w.ext).2, w.trace ++ [Call.snsPublish message topic]⟩)

/-! ## Store and notification helpers (`main.go`) -/

/-- The function `getMessage`. -/
def getMessage (lib : Lib) (env : Env σ) (conf : Config) (id : String) (w : World σ) :
    Except String String × World σ :=
  callGetObj env conf.Bucket.Name (lib.PathJoin [conf.Bucket.MsgPrefix, id]) w

/-- The function `presignMessage`. -/
def presignMessage (lib : Lib) (env : Env σ) (conf : Config) (id : String) (w : World σ) :
    Except String String × World σ :=
  callGetObjReq env conf.Bucket.Name (lib.PathJoin [conf.Bucket.MsgPrefix, id]) w

/-- The function `getForwardInfo`. -/
def getForwardInfo (lib : Lib) (env : Env σ) (conf : Config) (id : String) (w : World σ) :
    (forwardInfo × Option String) × World σ :=
  match callGetObj env conf.Bucket.Name (lib.PathJoin [conf.Bucket.ForwardMetaPrefix, id]) w with
  | (.error err, w1) => ((⟨"", "", ""⟩, some err), w1)
  | (.ok body, w1) => (lib.DecodeForwardInfo body, w1)

/-- The function `putForwardInfo`. -/
def putForwardInfo (lib : Lib) (env : Env σ) (conf : Config) (msg : forwardInfo) (w : World σ) :
    Option String × World σ :=
  match lib.MarshalForwardInfo msg with
  | .error err => (some ("JSON marshal error: " ++ err), w)
  | .ok data =>
    callPutObj env conf.Bucket.Name
      (lib.PathJoin [conf.Bucket.ForwardMetaPrefix, msg.ForwardedID]) data w

/-- The function `handleOutbound`. -/
def handleOutbound (lib : Lib) (env : Env σ) (conf : Config) (record : Record) (w : World σ) :
    Outcome × World σ :=
  match callCopyObj env conf.Bucket.Name
      (lib.PathJoin [conf.Bucket.Name, conf.Bucket.MsgPrefix, record.MessageID])
      (lib.PathJoin [conf.Bucket.OutboxPrefix, record.MessageID]) w with
  | (some err, w1) => (.err err, w1)
  | (none, w1) => (.nil, w1)

/-- The builder that `sendErrorEmail` fills. -/
def errorEmailBuilder (lib : Lib) (conf : Config) (msg : String) (record : Record) : MailBuilder :=
  { Builder with
    From := ⟨"Lambda Email Error", "error@" ++ conf.Domain⟩
    To := [⟨"", conf.PrivateAccountMailbox ++ "@" ++ conf.PrivateAccountDomain⟩]
    Subject := "Lambda Email Error"
    Text := msg ++ "\nid: " ++ record.MessageID ++ "\n\n" ++ lib.MarshalIndentRecord record }

/-- The `ses.SendRawEmailInput` that `sendErrorEmail` sends. -/
def errorEmailInput (conf : Config) (data : String) : SendRawEmailInput :=
  { Destinations := strList [conf.PrivateAccountMailbox ++ "@" ++ conf.PrivateAccountDomain]
    Data := data
    Source := "error@" ++ conf.Domain }

/-- The function `sendErrorEmail`. -/
def sendErrorEmail (lib : Lib) (env : Env σ) (conf : Config) (msg : String) (record : Record)
    (w : World σ) : Outcome × World σ :=
  let b := errorEmailBuilder lib conf msg record
  match lib.Build b with
  | some err => (.err ("Build errormsg email err=" ++ lib.Quote err), w)
  | none =>
    match lib.Encode b with
    | .error err => (.err ("Encode errormsg email err=" ++ lib.Quote err), w)
    | .ok data =>
      match callSendEmail env (errorEmailInput conf data) w with
      | (.error err, w1) => (.err ("send errormsg email error: " ++ err), w1)
      | (.ok _, w1) => (.nil, w1)

/-- The function `publishSNS`. -/
def publishSNS (lib : Lib) (env : Env σ) (conf : Config) (topic : String) (record : Record)
    (w : World σ) : Outcome × World σ :=
  match presignMessage lib env conf record.MessageID w with
  | (.error err, w1) => (.err ("presign url for " ++ record.MessageID ++ " err: " ++ err), w1)
  | (.ok url, w1) =>
    match lib.MarshalMsg
        { ID := record.MessageID, From := record.From, To := record.To,
          Subject := record.Subject, Date := record.Date, PresignedURL := url } with
    | .error err => (.err ("marshal sqs msg err: " ++ err), w1)
    | .ok payload =>
      match callPublish env payload topic w1 with
      | (some err, w2) => (.err ("snsPublish err for " ++ record.MessageID ++ ": " ++ err), w2)
      | (none, w2) => (.nil, w2)

/-! ## The workflows (`main.go`) -/

/-- The recipient loop of `forwardToGmail`: the pair `(forwardToAddr,
substituteFromAddr)` it leaves, both empty when no recipient is on the proxy
domain. -/
def forwardLoop (lib : Lib) (conf : Config) : List String → String × String
  | [] => ("", "")
  | recipient :: rest =>
    match splitFirstAt (lib.ToLower recipient).data with
    | none => forwardLoop lib conf rest
    | some (part0, part1) =>
      if String.mk part1 = conf.Domain then
        (conf.PrivateAccountMailbox ++ "+" ++ Sanitize (String.mk part0) ++ "@" ++
          conf.PrivateAccountDomain, lib.ToLower recipient)
      else forwardLoop lib conf rest

/-- The recipient loop of `handleReply`: the `proxyAddr` it leaves. -/
def replyLoop (lib : Lib) (conf : Config) : List String → String
  | [] => ""
  | recipient :: rest =>
    match splitFirstAt (lib.ToLower recipient).data with
    | none => replyLoop lib conf rest
    | some (_, part1) =>
      if String.mk part1 = conf.Domain then lib.ToLower recipient
      else replyLoop lib conf rest

/-- The display name taken from the first `From` header, as both workflows do. -/
def substituteFromName (lib : Lib) (originalFrom : List String) : String :=
  match originalFrom with
  | [] => ""
  | first :: _ =>
    match lib.ParseAddress first with
    | .ok addr => if addr.Name ≠ "" then addr.Name else ""
    | .error _ => ""

/-- Go `strconv.FormatBool`. -/
def FormatBool (b : Bool) : String := if b then "true" else "false"

/-- Parts with content, as the attachment loops of `forwardToGmail` keep them. -/
def nonEmptyParts (ps : List Part) : List Part := ps.filter (fun p => p.Content.length > 0)

/-- The builder that `forwardToGmail` fills. -/
def forwardBuilder (lib : Lib) (record : Record) (forwardToAddr substituteFromAddr : String)
    (body : Envelope) : MailBuilder :=
  { Builder with
    From := ⟨substituteFromName lib record.From, substituteFromAddr⟩
    To := [⟨"", forwardToAddr⟩]
    Subject := record.Subject
    Text := body.Text
    HTML := body.HTML
    Attachments := nonEmptyParts body.Attachments
    Inlines := nonEmptyParts body.Inlines ++ nonEmptyParts body.OtherParts
    Headers :=
      [("X-Lambdaemail-Date", record.Timestamp),
       ("X-Lambdaemail-From", String.intercalate "," record.From),
       ("X-Lambdaemail-To", String.intercalate "," record.To),
       ("X-Lambdaemail-Id", record.MessageID),
       ("X-Lambdaemail-Has-Attachments",
          FormatBool (decide (body.Attachments.length > 0) || decide (body.Inlines.length > 0)
            || decide (body.OtherParts.length > 0))),
       ("X-Lambdaemail-Has-Other-Attachments",
          FormatBool (decide (body.OtherParts.length > 0)))] }

/-- The function `forwardToGmail`. -/
def forwardToGmail (lib : Lib) (env : Env σ) (conf : Config) (record : Record) (w : World σ) :
    Outcome × World σ :=
  let found := forwardLoop lib conf record.Recipients
  if found.1 = "" then
    (.err ("Failed to find " ++ conf.Domain ++ " address for email " ++ record.MessageID), w)
  else
    match getMessage lib env conf record.MessageID w with
    | (.error err, w1) => (.err ("GetMessage err=" ++ lib.Quote err), w1)
    | (.ok raw, w1) =>
      match lib.ReadEnvelope raw with
      | .error err => (.err ("Parse email err=" ++ lib.Quote err), w1)
      | .ok body =>
        let b := forwardBuilder lib record found.1 found.2 body
        match lib.Build b with
        | some err => (.err ("Build forward email err=" ++ lib.Quote err), w1)
        | none =>
          match lib.Encode b with
          | .error err => (.err ("Encode forward email err=" ++ lib.Quote err), w1)
          | .ok data =>
            match callSendEmail env
                { Destinations := strList [found.1], Data := data, Source := found.2 } w1 with
            | (.error err, w2) => (.err ("send email error: " ++ err), w2)
            | (.ok none, w2) => (.nil, w2)
            | (.ok (some sendID), w2) =>
              match putForwardInfo lib env conf
                  { OriginalMessageID := TrimRightGt (TrimLeftLt record.HeaderMessageID)
                    SESID := record.MessageID
                    ForwardedID := sendID } w2 with
              | (some err, w3) => (.err ("save forward info error: " ++ err), w3)
              | (none, w3) => (.nil, w3)

/-- The builder that `handleReply` fills. -/
def replyBuilder (lib : Lib) (record : Record) (proxyAddr inReplyTo : String)
    (replyTo : MailAddress) (body : Envelope) : MailBuilder :=
  { Builder with
    From := ⟨substituteFromName lib record.From, proxyAddr⟩
    To := [replyTo]
    Subject := record.Subject
    Text := body.Text
    HTML := body.HTML
    Attachments := body.Attachments
    Inlines := body.Inlines ++ body.OtherParts
    Headers := [("In-Reply-To", "<" ++ inReplyTo ++ ">"), ("References", "<" ++ inReplyTo ++ ">")] }

/-- The tail of `handleReply` once the forward info is found: read the original
message, build the reply and send it. The log line after the send
dereferences `sendResult.MessageId`, which panics on a nil pointer. -/
def replySend (lib : Lib) (env : Env σ) (conf : Config) (record : Record)
    (proxyAddr inReplyTo : String) (body : Envelope) (info : forwardInfo) (w : World σ) :
    Outcome × World σ :=
  match getMessage lib env conf info.SESID w with
  | (.error err, w1) => (.err ("GetMessage (original) err=" ++ lib.Quote err), w1)
  | (.ok origRaw, w1) =>
    match lib.ReadEnvelope origRaw with
    | .error err => (.err ("Parse email (original) err=" ++ lib.Quote err), w1)
    | .ok origBody =>
      let replyToStr :=
        if origBody.GetHeader "reply-to" = "" then origBody.GetHeader "from"
        else origBody.GetHeader "reply-to"
      match lib.ParseAddress replyToStr with
      | .error err => (.err ("Parse reply-to err=" ++ lib.Quote err), w1)
      | .ok replyTo =>
        let b := replyBuilder lib record proxyAddr inReplyTo replyTo body
        match lib.Build b with
        | some err => (.err ("Build forward email err=" ++ lib.Quote err), w1)
        | none =>
          match lib.Encode b with
          | .error err => (.err ("Encode forward email err=" ++ lib.Quote err), w1)
          | .ok data =>
            match callSendEmail env
                { Destinations := strList [replyTo.Address], Data := data, Source := proxyAddr }
                w1 with
            | (.error err, w2) => (.err ("send email error: " ++ err), w2)
            | (.ok none, w2) => (.panic, w2)
            | (.ok (some _), w2) => (.nil, w2)

/-- The function `handleReply`. -/
def handleReply (lib : Lib) (env : Env σ) (conf : Config) (record : Record) (w : World σ) :
    Outcome × World σ :=
  let proxyAddr := replyLoop lib conf record.Recipients
  if proxyAddr = "" then
    (.err ("Failed to find " ++ conf.Domain ++ " address for email " ++ record.MessageID), w)
  else
    match getMessage lib env conf record.MessageID w with
    | (.error err, w1) => (.err ("GetMessage err=" ++ lib.Quote err), w1)
    | (.ok raw, w1) =>
      match lib.ReadEnvelope raw with
      | .error err => (.err ("Parse email err=" ++ lib.Quote err), w1)
      | .ok body =>
        let inReplyTo := trimBrackets (body.GetHeader "In-Reply-To")
        if inReplyTo = "" then (.err "No in-reply-to header found", w1)
        else
          let replyToId := TrimSuffix inReplyTo "@email.amazonses.com"
          match getForwardInfo lib env conf replyToId w1 with
          | ((_, some err), w2) =>
            (.err ("GetForwardInfo replyToId=" ++ replyToId ++ " err=" ++ lib.Quote err), w2)
          | ((info, none), w2) => replySend lib env conf record proxyAddr inReplyTo body info w2

/-! ## `Handler` (`main.go`) -/

/-- The `suspect` list that the loop body of `Handler` builds: one reason per
verdict other than `"PASS"`; every reason carries the DKIM status, as in the
source. -/
def suspect (record : Record) : List (String × String) :=
  (if record.DKIMVerdict ≠ "PASS" then [("dkim_verdict", record.DKIMVerdict)] else []) ++
  (if record.SPFVerdict ≠ "PASS" then [("spf_verdict", record.DKIMVerdict)] else []) ++
  (if record.VirusVerdict ≠ "PASS" then [("virus_verdict", record.DKIMVerdict)] else [])

/-- The flag `virus` of the loop body. -/
def virus (record : Record) : Bool := decide (record.VirusVerdict ≠ "PASS")

/-- The variable `fromAddr` of the loop body: the address-only part of the
first `From` header when it parses, empty otherwise. -/
def fromAddr (lib : Lib) (record : Record) : String :=
  match record.From with
  | [] => ""
  | first :: _ =>
    match lib.ParseAddress first with
    | .ok addr => addr.Address
    | .error _ => ""

/-- The variable `toOutbound` of the loop body. -/
def toOutbound (lib : Lib) (conf : Config) (record : Record) : Bool :=
  record.To.any fun toAddr =>
    match lib.ParseAddress toAddr with
    | .ok addr => decide (addr.Address = conf.OutboundAddress)
    | .error _ => false

/-- How the loop over `conf.Routes` ends: a `return` of `Handler`, or the end
of the list with the flag `skipForwarding`. -/
inductive RulesResult where
  | ret (result : Outcome)
  | done (skipForwarding : Bool)
  deriving DecidableEq, Repr

/-- The loop over `conf.Routes` in `Handler`. -/
def ruleLoop (lib : Lib) (env : Env σ) (conf : Config) (record : Record) :
    List Route → Bool → World σ → RulesResult × World σ
  | [], skipForwarding, w => (.done skipForwarding, w)
  | rule :: rest, skipForwarding, w =>
    match rule.Match lib conf record.To (fromAddr lib record) with
    | (_, some _) => ruleLoop lib env conf record rest skipForwarding w
    | (false, none) => ruleLoop lib env conf record rest skipForwarding w
    | (true, none) =>
      if rule.Drop then (.ret .nil, w)
      else if decide ((suspect record).length > 0) && !rule.AllowSuspectMessages then
        (.ret (.err ("matched_rule_but_suspect " ++ record.MessageID)), w)
      else
        match publishSNS lib env conf rule.SNS record w with
        | (.nil, w1) =>
          ruleLoop lib env conf record rest (skipForwarding || !rule.Forward) w1
        | (failure, w1) => (.ret failure, w1)

/-- The branch of `Handler` taken when `skipForwarding` is false: the choice
among `handleOutbound`, `handleReply` and `forwardToGmail`. -/
def dispatch (lib : Lib) (env : Env σ) (conf : Config) (record : Record) (w : World σ) :
    Outcome × World σ :=
  if fromAddr lib record = conf.PrivateAccountAddress then
    if toOutbound lib conf record then handleOutbound lib env conf record w
    else handleReply lib env conf record w
  else forwardToGmail lib env conf record w

/-- How one pass through the body of the record loop ends: a `return` of
`Handler` (or a panic), or the end of the body, with the error appended to
`errors` if there is one. -/
inductive Step where
  | ret (result : Outcome)
  | next (appended : Option String)
  deriving DecidableEq, Repr

/-- The body of the loop over `sse.Records` in `Handler`. -/
def recordBody (lib : Lib) (env : Env σ) (conf : Config) (record : Record) (w : World σ) :
    Step × World σ :=
  if virus record then
    (.ret .nil, (sendErrorEmail lib env conf "Virus email, not processing" record w).2)
  else if lib.ToLower (fromAddr lib record) = awsMailerDaemon then
    (.ret .nil,
      (sendErrorEmail lib env conf "aws mailer-daemon notification, not forwarding" record w).2)
  else
    match ruleLoop lib env conf record conf.Routes false w with
    | (.ret result, w1) => (.ret result, w1)
    | (.done true, w1) => (.next none, w1)
    | (.done false, w1) =>
      match dispatch lib env conf record w1 with
      | (.nil, w2) => (.next none, w2)
      | (.err e, w2) => (.next (some e), w2)
      | (.panic, w2) => (.ret .panic, w2)

/-- The text of `fmt.Errorf("%+v", errors)`. -/
def formatErrors (errors : List String) : String := "[" ++ String.intercalate " " errors ++ "]"

/-- The loop over `sse.Records` in `Handler` and the statements after it. -/
def recordLoop (lib : Lib) (env : Env σ) (conf : Config) :
    List Record → List String → World σ → Outcome × World σ
  | [], errors, w => (if errors.length > 0 then .err (formatErrors errors) else .nil, w)
  | record :: rest, errors, w =>
    match recordBody lib env conf record w with
    | (.ret result, w1) => (result, w1)
    | (.next none, w1) => recordLoop lib env conf rest errors w1
    | (.next (some e), w1) => recordLoop lib env conf rest (errors ++ [e]) w1

/-- The function `Handler`, on a loaded configuration. -/
def Handler (lib : Lib) (env : Env σ) (conf : Config) (sse : List Record) (w : World σ) :
    Outcome × World σ :=
  recordLoop lib env conf sse [] w

/-! ## Observations on traces -/

/-- The call is a `sendEmail`. -/
def Call.isSend : Call → Bool
  | .sendEmail _ => true
  | _ => false

/-- The call is an `snsPublish`. -/
def Call.isPublish : Call → Bool
  | .snsPublish _ _ => true
  | _ => false

/-- The call writes to the blob store (`s3PutObj` or `s3CopyObj`). -/
def Call.isStoreWrite : Call → Bool
  | .s3PutObj _ _ _ => true
  | .s3CopyObj _ _ _ => true
  | _ => false

/-- The world `w2` continues `w1` with calls that all satisfy `P`. -/
def TraceExt (P : Call → Prop) (w1 w2 : World σ) : Prop :=
  ∃ delta, w2.trace = w1.trace ++ delta ∧ ∀ c ∈ delta, P c

/-- The end of the loop body that follows a workflow's return: `nil` and an
error end the body (the error is appended to `errors`), a panic leaves
`Handler`. -/
def stepOf (r : Outcome × World σ) : Step × World σ :=
  match r with
  | (.nil, w) => (.next none, w)
  | (.err e, w) => (.next (some e), w)
  | (.panic, w) => (.ret .panic, w)

/-- The route matches the record: `Route.Match` on the record's `To` headers
and parsed sender returns `(true, nil)`. -/
def Route.matches (lib : Lib) (conf : Config) (record : Record) (rule : Route) : Prop :=
  rule.Match lib conf record.To (fromAddr lib record) = (true, none)

/-- The record passes the virus gate and the sender-loop gate of `Handler`. -/
def passesGates (lib : Lib) (record : Record) : Prop :=
  record.VirusVerdict = "PASS" ∧ lib.ToLower (fromAddr lib record) ≠ awsMailerDaemon

/-- The call is the presigning of a stored message or the publication of a
notification to the topic of a route of `routes` that matches the record: the
calls the rule loop makes for `routes`. -/
def notifiesOnly (lib : Lib) (conf : Config) (record : Record) (routes : List Route)
    (c : Call) : Prop :=
  (∃ b k, c = Call.s3GetObjReq b k) ∨
    ∃ m rule, rule ∈ routes ∧ rule.matches lib conf record ∧ c = Call.snsPublish m rule.SNS

/-! ## `Config.validate` (`config.go`) -/

/-- The method `Config.validate`: the first required field that is empty, or
`nil`. -/
def Config.validate (c : Config) : Option String :=
  if c.Domain = "" then some "domain must be set"
  else if c.PrivateAccountAddress = "" then some "private_address must be set"
  else if c.OutboundAddress = "" then some "outbound_address must be set"
  else if c.SSMPrefix = "" then some "ssm_prefix must be set"
  else if c.AwsRegion = "" then some "aws_region must be set"
  else if c.Bucket.Name = "" then some "bucket.name must be set"
  else if c.Bucket.MsgPrefix = "" then some "bucket.msg_prefix must be set"
  else if c.Bucket.ForwardMetaPrefix = "" then some "bucket.forward_meta_prefix must be set"
  else if c.Bucket.OutboxPrefix = "" then some "bucket.outbox_prefix must be set"
  else none

/-! ## Notions used in the statements about the workflows -/

/-- A blob store: a read that follows a write of the same bucket and key which
reported no error returns the body written. -/
def StoreLaw (env : Env σ) : Prop :=
  ∀ bucket key body st, (env.s3PutObj bucket key body st).1 = none →
    (env.s3GetObj bucket key (env.s3PutObj bucket key body st).2).1 = .ok body

/-- The `encoding/json` round trip on one record: what `json.Marshal` writes
for it, `Decode` reads back as the same record, without error. -/
def JsonRoundTrip (lib : Lib) (r : forwardInfo) : Prop :=
  ∀ data, lib.MarshalForwardInfo r = .ok data → lib.DecodeForwardInfo data = (r, none)

/-- The recipient is on the proxy domain, as the recipient loops of
`forwardToGmail` and `handleReply` test it: the lower-cased recipient holds an
`@` and the text after its first `@` is `conf.Domain`; the value is the text
before that `@`. -/
def proxyLocalPart (lib : Lib) (conf : Config) (recipient : String) : Option String :=
  match splitFirstAt (lib.ToLower recipient).data with
  | none => none
  | some (part0, part1) => if String.mk part1 = conf.Domain then some (String.mk part0) else none

/-- The `ses.SendRawEmailInput` that `forwardToGmail` sends for the encoded
message `data`. -/
def forwardInput (lib : Lib) (conf : Config) (record : Record) (data : String) :
    SendRawEmailInput :=
  { Destinations := strList [(forwardLoop lib conf record.Recipients).1]
    Data := data
    Source := (forwardLoop lib conf record.Recipients).2 }

/-- The forward-to-private workflow reaches its send: a recipient is on the
proxy domain, the stored raw message `raw` is fetched (leaving the world `w1`)
and parses to `body`, and the forward builds and encodes to `data`. -/
def forwardReady (lib : Lib) (env : Env σ) (conf : Config) (record : Record) (w : World σ)
    (raw : String) (w1 : World σ) (body : Envelope) (data : String) : Prop :=
  (forwardLoop lib conf record.Recipients).1 ≠ "" ∧
  getMessage lib env conf record.MessageID w = (.ok raw, w1) ∧
  lib.ReadEnvelope raw = .ok body ∧
  lib.Build (forwardBuilder lib record (forwardLoop lib conf record.Recipients).1
    (forwardLoop lib conf record.Recipients).2 body) = none ∧
  lib.Encode (forwardBuilder lib record (forwardLoop lib conf record.Recipients).1
    (forwardLoop lib conf record.Recipients).2 body) = .ok data

/-- The correlation record that `forwardToGmail` writes after a send that was
assigned the id `sendID`. -/
def forwardRecord (record : Record) (sendID : String) : forwardInfo :=
  { OriginalMessageID := TrimRightGt (TrimLeftLt record.HeaderMessageID)
    SESID := record.MessageID
    ForwardedID := sendID }

/-! ## Test doubles (`main_test.go`)

Concrete collaborators and library functions on which the statements below are
evaluated. The collaborators follow `fakeSendEmail`, `fakeGetObj`,
`fakePutObj`, `fakeCopyObj`, `fakeGetObjReq` and `fakeSNSPublish`; the library
functions are small stand-ins that cover the inputs used here. -/

/-- The package-level state of `main_test.go`, and the ids that `crypto/rand`
hands to `fakeSendEmail`. -/
structure FakeState where
  fakeS3 : List ((String × String) × String)
  sentEmails : List (SendRawEmailInput × String)
  snsMessages : List String
  sendIDs : List String
  deriving DecidableEq, Repr

/-- Look a key up in `fakeS3`. -/
def fakeLookup (key : String × String) : List ((String × String) × String) → Option String
  | [] => none
  | (k, v) :: rest => if k = key then some v else fakeLookup key rest

/-- Assign a key of `fakeS3`. -/
def fakeStore (key : String × String) (v : String) (m : List ((String × String) × String)) :
    List ((String × String) × String) :=
  (key, v) :: m.filter (fun e => e.1 ≠ key)

/-- The text before the first `/` and the text after it. -/
def splitFirstSlash : List Char → List Char × List Char
  | [] => ([], [])
  | c :: cs => if c = '/' then ([], cs) else ((c :: (splitFirstSlash cs).1), (splitFirstSlash cs).2)

/-- The collaborators of `main_test.go`. -/
def fakeEnv : Env FakeState where
  sendEmail i st :=
    (.ok (some (st.sendIDs.head?.getD "")),
      { st with sentEmails := st.sentEmails ++ [(i, st.sendIDs.head?.getD "")],
                sendIDs := st.sendIDs.tail })
  s3GetObj bucket key st :=
    (match fakeLookup (bucket, key) st.fakeS3 with
      | some obj => .ok obj
      | none => .error "NoSuchKey", st)
  s3PutObj bucket key body st := (none, { st with fakeS3 := fakeStore (bucket, key) body st.fakeS3 })
  s3CopyObj bucket source key st :=
    match fakeLookup (String.mk (splitFirstSlash source.data).1,
        String.mk (splitFirstSlash source.data).2) st.fakeS3 with
    | some obj => (none, { st with fakeS3 := fakeStore (bucket, key) obj st.fakeS3 })
    | none => (some "NoSuchKey", st)
  s3GetObjReq _ _ st := (.ok "http://127.0.0.1/", st)
  snsPublish message _ st := (none, { st with snsMessages := st.snsMessages ++ [message] })

/-- A store holding `objects`, no mail sent, nothing published, no call made. -/
def fakeStart (objects : List ((String × String) × String)) (ids : List String) :
    World FakeState :=
  ⟨{ fakeS3 := objects, sentEmails := [], snsMessages := [], sendIDs := ids }, []⟩

/-- A stand-in for `net/mail.ParseAddress`: `name <local@domain>` or a bare
`local@domain`. -/
def testParseAddress (s : String) : Except String MailAddress :=
  let bare := s.data.takeWhile (· ≠ '<')
  let rest := s.data.dropWhile (· ≠ '<')
  match rest with
  | [] =>
    if s.data.contains '@' && !s.data.contains ' ' then .ok ⟨"", s⟩
    else .error "mail: missing @ in address"
  | _ :: inner =>
    let addr := inner.takeWhile (· ≠ '>')
    if addr.contains '@' && inner.contains '>' then
      .ok ⟨String.mk (dropRightWhile (· = ' ') bare), String.mk addr⟩
    else .error "mail: unclosed angle-addr"

/-- The list `p` occurs in the list as a contiguous block. -/
def containsBlock (p : List Char) : List Char → Bool
  | [] => p.isEmpty
  | c :: cs => p.isPrefixOf (c :: cs) || containsBlock p cs

/-- A stand-in for `regexp.Compile`: the empty pattern and `.*` match every
string, a pattern of letters, digits, `@`, `-` and `_` matches the strings that
contain it, an unclosed `(` or `[` is a compile error. -/
def testCompile (p : String) : Except String Regexp :=
  if p = "" ∨ p = ".*" then .ok ⟨fun _ => true⟩
  else if p.data.all (fun c => !replaceRegexClass c || c = '@' || c = '-' || c = '_') then
    .ok ⟨fun s => containsBlock p.data s.data⟩
  else .error ("error parsing regexp: " ++ p)

/-- The library stand-ins used to evaluate the statements. -/
def testLib : Lib where
  ParseAddress := testParseAddress
  Compile := testCompile
  ToLower s := String.mk (s.data.map Char.toLower)
  Quote s := "\"" ++ s ++ "\""
  PathJoin parts := String.intercalate "/" (parts.filter (· ≠ ""))
  ReadEnvelope raw :=
    .ok { Text := raw, HTML := "", Attachments := [], Inlines := [], OtherParts := [],
          GetHeader := fun _ => "" }
  Build b :=
    if b.From.Address = "" then some "from not set"
    else if b.Subject = "" then some "subject not set"
    else if b.To = [] then some "no recipients (to, cc, bcc) set"
    else none
  Encode b := .ok ("From: " ++ b.From.Address ++ "\nSubject: " ++ b.Subject ++ "\n\n" ++ b.Text)
  MarshalIndentRecord r := "messageId: " ++ r.MessageID
  MarshalMsg m := .ok ("id: " ++ m.ID)
  MarshalForwardInfo i := .ok (i.OriginalMessageID ++ "\n" ++ i.SESID ++ "\n" ++ i.ForwardedID)
  DecodeForwardInfo _ := (⟨"", "", ""⟩, some "unexpected end of JSON input")

/-- The configuration of `TestLambdaEmail`, with an outbound address. -/
def testConf (routes : List Route) : Config :=
  { Domain := "my-ses-email-domain.example.com"
    PrivateAccountAddress := "foo@gmail.example.com"
    OutboundAddress := "outbound@my-ses-email-domain.example.com"
    SSMPrefix := ""
    AwsRegion := ""
    Bucket := { Name := "westerly-tapir", MsgPrefix := "/periphery-corollas",
                ForwardMetaPrefix := "/Voldemort-wearily", OutboxPrefix := "/outbox" }
    Routes := routes }

/-- A record from `psanford@example.com` to the proxy address of
`TestLambdaEmail`, with the given DKIM, SPF and virus verdicts. -/
def testRecord (id dkim spf vir : String) : Record :=
  { MessageID := id
    Timestamp := "2018-08-17 02:12:23.552 +0000 UTC"
    Subject := "test subject"
    To := ["test@my-ses-email-domain.example.com"]
    From := ["Peter Sanford <psanford@example.com>"]
    Date := "Thu, 16 Aug 2018 19:12:07 -0700"
    HeaderMessageID := "<5B762F46B550CE2BAB51989E4F9F1280@mail.gmail.com>"
    Recipients := ["test@my-ses-email-domain.example.com"]
    SpamVerdict := "PASS"
    DKIMVerdict := dkim
    SPFVerdict := spf
    VirusVerdict := vir }

/-- The route of `TestLambdaEmail`, with the given flags. -/
def testRoute (forward allowSuspect drop : Bool) : Route :=
  { Src := "psanford@example.com"
    Dst := "test@my-ses-email-domain.example.com"
    SNS := "hornet-breakwaters"
    Forward := forward
    AllowSuspectMessages := allowSuspect
    Drop := drop }

/-- A blob store holding the raw message `m1` under the message prefix, as
`TestLambdaEmail` prepares it. -/
def testStore : List ((String × String) × String) :=
  [(("westerly-tapir", "/periphery-corollas/m1"), "hello")]

/-- A bounce notification of the platform: `testRecord` with the mailer daemon
as its sender. -/
def daemonRecord (id : String) : Record :=
  { testRecord id "PASS" "PASS" "PASS" with From := ["MAILER-DAEMON@amazonses.com"] }

/-- A drop route for mail from `psanford@example.com` to the proxy address
`drop@…`. -/
def testDropRoute : Route :=
  { Src := "psanford@example.com", Dst := "drop@my-ses-email-domain.example.com", SNS := "",
    Forward := false, AllowSuspectMessages := true, Drop := true }

/-- The route of `TestLambdaEmail` for mail from the mailer daemon, with the
given flags. -/
def daemonRoute (allowSuspect drop : Bool) : Route :=
  { testRoute true allowSuspect drop with Src := "MAILER-DAEMON@amazonses.com" }

/-- The calls that `Handler` makes for the record `m1` of `testRecord` alone,
with all verdicts `PASS`, under the route of `TestLambdaEmail` and the store
`testStore`: presign and publish, then the forward-to-private workflow. -/
def testForwardCalls : List Call :=
  [Call.s3GetObjReq "westerly-tapir" "/periphery-corollas/m1",
   Call.snsPublish "id: m1" "hornet-breakwaters",
   Call.s3GetObj "westerly-tapir" "/periphery-corollas/m1",
   Call.sendEmail
     { Destinations := ["foo+test@gmail.example.com"],
       Data := "From: test@my-ses-email-domain.example.com\nSubject: test subject\n\nhello",
       Source := "test@my-ses-email-domain.example.com" },
   Call.s3PutObj "westerly-tapir" "/Voldemort-wearily/id1"
     "5B762F46B550CE2BAB51989E4F9F1280@mail.gmail.com\nm1\nid1"]

/-! ## Test doubles with message headers

A second set of library stand-ins, for the statements that read headers of
stored messages and decode correlation records: raw messages are header lines
`Name: value`, an empty line, and the text; a correlation record is stored as
its three fields on three lines. -/

/-- Cut a character list at every `sep`. -/
def splitOnChar (sep : Char) : List Char → List (List Char)
  | [] => [[]]
  | c :: cs =>
    if c = sep then [] :: splitOnChar sep cs
    else match splitOnChar sep cs with
      | [] => [[c]]
      | p :: ps => (c :: p) :: ps

/-- The value of the first header line named `name`, names compared without
case; empty when there is none. -/
def headerValue (name : String) : List (List Char) → String
  | [] => ""
  | l :: ls =>
    if (l.takeWhile (· ≠ ':')).map Char.toLower = name.data.map Char.toLower then
      String.mk ((l.dropWhile (· ≠ ':')).drop 2)
    else headerValue name ls

/-- A stand-in for `enmime.ReadEnvelope`: header lines up to the first empty
line, then the text. -/
def mimeRead (raw : String) : Envelope :=
  { Text := String.mk (List.intercalate ['\n']
      (((splitOnChar '\n' raw.data).dropWhile (fun l => !l.isEmpty)).drop 1))
    HTML := ""
    Attachments := []
    Inlines := []
    OtherParts := []
    GetHeader := fun name =>
      headerValue name ((splitOnChar '\n' raw.data).takeWhile (fun l => !l.isEmpty)) }

/-- A stand-in for `Part.Encode` that writes the addresses, the subject, the
added headers and the text. -/
def mimeEncode (b : MailBuilder) : String :=
  "From: " ++ b.From.Address ++ "\nTo: " ++ String.intercalate "," (b.To.map (·.Address)) ++
    "\nSubject: " ++ b.Subject ++ "\n" ++
    String.join (b.Headers.map (fun h => h.1 ++ ": " ++ h.2 ++ "\n")) ++ "\n" ++ b.Text

/-- The library stand-ins with message headers and a decoder for correlation
records. -/
def mimeLib : Lib :=
  { testLib with
    ReadEnvelope := fun raw => .ok (mimeRead raw)
    Encode := fun b => .ok (mimeEncode b)
    DecodeForwardInfo := fun data =>
      match splitOnChar '\n' data.data with
      | [o, s, f] => (⟨String.mk o, String.mk s, String.mk f⟩, none)
      | _ => (⟨"", "", ""⟩, some "unexpected end of JSON input") }

/-- The raw message `m1` of an external sender, with its `Message-ID`. -/
def rawOriginal : String :=
  "From: Peter Sanford <psanford@example.com>\n" ++
  "Message-ID: <5B762F46B550CE2BAB51989E4F9F1280@mail.gmail.com>\n\nhello"

/-- The raw reply `m2` of the private account to the forwarded copy `id1`. -/
def rawReply : String := "In-Reply-To: <id1@email.amazonses.com>\n\nthanks"

/-- A store after `m1` was forwarded with send id `id1` and the reply `m2`
arrived: both raw messages and the correlation record of the forward. -/
def replyStore : List ((String × String) × String) :=
  [(("westerly-tapir", "/periphery-corollas/m1"), rawOriginal),
   (("westerly-tapir", "/Voldemort-wearily/id1"),
      "5B762F46B550CE2BAB51989E4F9F1280@mail.gmail.com\nm1\nid1"),
   (("westerly-tapir", "/periphery-corollas/m2"), rawReply)]

/-- The record of the reply `m2`: from the private address, received on the
proxy address. -/
def replyRecord : Record :=
  { testRecord "m2" "PASS" "PASS" "PASS" with
    Subject := "Re: test subject"
    From := ["Foo <foo@gmail.example.com>"]
    To := ["Peter Sanford <psanford@example.com>"]
    HeaderMessageID := "<reply-1@mail.gmail.example.com>" }

/-- The collaborators of `main_test.go` with a blob store that refuses every
write. -/
def brokenPutEnv : Env FakeState :=
  { fakeEnv with s3PutObj := fun _ _ _ st => (some "AccessDenied", st) }

/-- The encoding by `mimeEncode` of the forward of the message `m1` of
`testRecord` with the raw message `rawOriginal`. -/
def testForwardData : String :=
  "From: test@my-ses-email-domain.example.com\nTo: foo+test@gmail.example.com\n" ++
  "Subject: test subject\nX-Lambdaemail-Date: 2018-08-17 02:12:23.552 +0000 UTC\n" ++
  "X-Lambdaemail-From: Peter Sanford <psanford@example.com>\n" ++
  "X-Lambdaemail-To: test@my-ses-email-domain.example.com\nX-Lambdaemail-Id: m1\n" ++
  "X-Lambdaemail-Has-Attachments: false\nX-Lambdaemail-Has-Other-Attachments: false\n\nhello"

/-- The configuration of `TestLambdaEmail` with a space before the private
address. -/
def spaceConf : Config := { testConf [] with PrivateAccountAddress := " foo@gmail.example.com" }

/-- A configuration with every required field set and the private address
`foo`, which holds no `@`. -/
def noAtConf : Config :=
  { Domain := "my-ses-email-domain.example.com"
    PrivateAccountAddress := "foo"
    OutboundAddress := "outbound@my-ses-email-domain.example.com"
    SSMPrefix := "/lambda-email"
    AwsRegion := "us-east-1"
    Bucket := { Name := "westerly-tapir", MsgPrefix := "/periphery-corollas",
                ForwardMetaPrefix := "/Voldemort-wearily", OutboxPrefix := "/outbox" }
    Routes := [] }

/-- The library stand-ins with a `json.MarshalIndent` of the record that shows
its DKIM and SPF verdicts, as the JSON of `events.SimpleEmailRecord` does. -/
def verdictLib : Lib :=
  { testLib with
    MarshalIndentRecord := fun r =>
      "messageId: " ++ r.MessageID ++ " dkimVerdict: " ++ r.DKIMVerdict ++
        " spfVerdict: " ++ r.SPFVerdict }

/-- The reply relay reaches its send: a recipient is on the proxy domain, the
stored reply `raw` is fetched and parses to `body` with a non-empty
`In-Reply-To`, the correlation record `info` is found, the original message
`origRaw` is fetched and parses to `origBody`, its `Reply-To` (or `From`)
parses to `replyTo`, and the reply builds and encodes to `data`; `w1`, `w2`
and `w3` are the worlds after the three reads. -/
def replyReady (lib : Lib) (env : Env σ) (conf : Config) (record : Record) (w : World σ)
    (raw : String) (w1 : World σ) (body : Envelope) (info : forwardInfo) (w2 : World σ)
    (origRaw : String) (w3 : World σ) (origBody : Envelope) (replyTo : MailAddress)
    (data : String) : Prop :=
  replyLoop lib conf record.Recipients ≠ "" ∧
  getMessage lib env conf record.MessageID w = (.ok raw, w1) ∧
  lib.ReadEnvelope raw = .ok body ∧
  trimBrackets (body.GetHeader "In-Reply-To") ≠ "" ∧
  getForwardInfo lib env conf
    (TrimSuffix (trimBrackets (body.GetHeader "In-Reply-To")) "@email.amazonses.com") w1 =
      ((info, none), w2) ∧
  getMessage lib env conf info.SESID w2 = (.ok origRaw, w3) ∧
  lib.ReadEnvelope origRaw = .ok origBody ∧
  lib.ParseAddress (if origBody.GetHeader "reply-to" = "" then origBody.GetHeader "from"
    else origBody.GetHeader "reply-to") = .ok replyTo ∧
  lib.Build (replyBuilder lib record (replyLoop lib conf record.Recipients)
    (trimBrackets (body.GetHeader "In-Reply-To")) replyTo body) = none ∧
  lib.Encode (replyBuilder lib record (replyLoop lib conf record.Recipients)
    (trimBrackets (body.GetHeader "In-Reply-To")) replyTo body) = .ok data

/-- The configuration of `TestLambdaEmail` with a private address that holds
two `@`. -/
def twoAtConf : Config := { testConf [] with PrivateAccountAddress := "a@b@c" }

/-- The library stand-ins with a `MailBuilder.Build` that fails. -/
def failBuildLib : Lib := { testLib with Build := fun _ => some "build failed" }

/-- A message of the private account to the outbound address, received on the
proxy address. -/
def outboundRecord : Record :=
  { testRecord "m1" "PASS" "PASS" "PASS" with
    From := ["Foo <foo@gmail.example.com>"]
    To := ["outbound@my-ses-email-domain.example.com"] }

/-! ## Sanitising, as the specification words it -/

/-- The maximal runs of a string: its characters cut into consecutive blocks,
each block tagged with whether its characters lie outside `[A-Za-z0-9]`, and
no two neighbouring blocks with the same tag. -/
def maximalRuns : List Char → List (Bool × List Char)
  | [] => []
  | c :: cs =>
    match maximalRuns cs with
    | [] => [(replaceRegexClass c, [c])]
    | (tag, run) :: rest =>
      if tag = replaceRegexClass c then (tag, c :: run) :: rest
      else (replaceRegexClass c, [c]) :: (tag, run) :: rest

/-- The specification of `Sanitize`: every maximal run of characters outside
`[A-Za-z0-9]` is replaced by a single `_`, every other run is kept. -/
def sanitizeByRuns (x : List Char) : List Char :=
  ((maximalRuns x).map (fun r => if r.1 then ['_'] else r.2)).flatten

/-! ## Lemmas on `Route.Match` -/

theorem matchLoop_none_iff (lib : Lib) (dst : String) (toHeader : List String) :
    matchLoop lib none dst toHeader = true ↔ someParsedTo lib toHeader (fun a => a = dst) := by
  induction toHeader with
  | nil => simp [matchLoop, someParsedTo]
  | cons t rest ih =>
    unfold matchLoop
    cases hp : lib.ParseAddress t with
    | error e =>
      simp only [ih]
      constructor
      · rintro ⟨u, hu, a, ha, hd⟩
        exact ⟨u, List.mem_cons_of_mem _ hu, a, ha, hd⟩
      · rintro ⟨u, hu, a, ha, hd⟩
        rcases List.mem_cons.mp hu with rfl | hu
        · rw [hp] at ha; cases ha
        · exact ⟨u, hu, a, ha, hd⟩
    | ok addr =>
      by_cases hd : addr.Address = dst
      · simp only [hd, if_true, true_iff]
        exact ⟨t, List.mem_cons_self _ _, addr, hp, hd⟩
      · simp only [hd, if_false, ih]
        constructor
        · rintro ⟨u, hu, a, ha, hd2⟩
          exact ⟨u, List.mem_cons_of_mem _ hu, a, ha, hd2⟩
        · rintro ⟨u, hu, a, ha, hd2⟩
          rcases List.mem_cons.mp hu with rfl | hu
          · rw [hp] at ha
            cases ha
            exact absurd hd2 hd
          · exact ⟨u, hu, a, ha, hd2⟩

theorem Match_literal_src (lib : Lib) (conf : Config) (r : Route) (toHeader : List String)
    (frm : String) (hs : wrapped r.Src = false) (hsp : r.Src ≠ privateAddrPlaceholder) :
    Route.Match lib conf r toHeader frm =
      (if r.Src = frm then
        (matchLoop lib none
          (if r.Dst = privateAddrPlaceholder then conf.PrivateAccountAddress else r.Dst) toHeader,
          none)
       else (false, none)) := by
  unfold wrapped at hs
  simp only [Route.Match, if_neg hsp, hs, matchTail]
  by_cases h : r.Src = frm <;> simp [h]

/-- C1: for a route whose `src` and `dst` are not wrapped in `/…/` and are not
the private-address placeholder, `Route.Match` returns `(true, no error)`
exactly when `src` equals `from` and some `toHeaders` entry parses as a mail
address whose address-only part equals `dst`; otherwise it returns
`(false, no error)`. -/
theorem Match_literal_iff (lib : Lib) (conf : Config) (r : Route) (toHeader : List String)
    (frm : String) (hs : wrapped r.Src = false) (_hd : wrapped r.Dst = false)
    (hsp : r.Src ≠ privateAddrPlaceholder) (hdp : r.Dst ≠ privateAddrPlaceholder) :
    (Route.Match lib conf r toHeader frm = (true, none) ↔
      (r.Src = frm ∧ someParsedTo lib toHeader (fun a => a = r.Dst))) ∧
    (¬ (r.Src = frm ∧ someParsedTo lib toHeader (fun a => a = r.Dst)) →
      Route.Match lib conf r toHeader frm = (false, none)) := by
  rw [Match_literal_src lib conf r toHeader frm hs hsp, if_neg hdp]
  by_cases h : r.Src = frm
  · simp only [h, if_true, true_and, Prod.mk.injEq, and_true]
    rw [← matchLoop_none_iff]
    refine ⟨Iff.rfl, fun hn => ?_⟩
    simpa using hn
  · simp [h]

/-- C1, evaluated on the route and the message of `TestLambdaEmail` (`from`
already reduced to its address, as `Handler` passes it). -/
theorem Match_literal_iff_witness :
    (Route.Match testLib (testConf []) (testRoute true false false)
        ["test@my-ses-email-domain.example.com"] "psanford@example.com" = (true, none) ↔
      ((testRoute true false false).Src = "psanford@example.com" ∧
        someParsedTo testLib ["test@my-ses-email-domain.example.com"]
          (fun a => a = (testRoute true false false).Dst))) ∧
    (¬ ((testRoute true false false).Src = "psanford@example.com" ∧
        someParsedTo testLib ["test@my-ses-email-domain.example.com"]
          (fun a => a = (testRoute true false false).Dst)) →
      Route.Match testLib (testConf []) (testRoute true false false)
        ["test@my-ses-email-domain.example.com"] "psanford@example.com" = (false, none)) :=
  Match_literal_iff testLib (testConf []) (testRoute true false false)
    ["test@my-ses-email-domain.example.com"] "psanford@example.com"
    (by decide) (by decide) (by decide) (by decide)

/-- C2: `Route.Match` on a route whose `dst` is `/.*/` and whose literal `src`
equals `from`, with a `To` entry that parses and that the pattern `.*`
matches: the code answers `(false, no error)`, because the destination
pattern is never compiled and `dst` is compared as a literal. -/
theorem Match_dst_pattern_ignored :
    Route.Match testLib (testConf [])
        { Src := "psanford@example.com", Dst := "/.*/", SNS := "", Forward := true,
          AllowSuspectMessages := false, Drop := false }
        ["test@my-ses-email-domain.example.com"] "psanford@example.com" = (false, none) ∧
    wrapped "/.*/" = true ∧
    (∃ re a, testLib.Compile (TrimSuffix (TrimPrefix "/.*/" "/") "/") = .ok re ∧
      testLib.ParseAddress "test@my-ses-email-domain.example.com" = .ok a ∧
      re.MatchString a.Address = true) :=
  ⟨by decide, by decide, ⟨fun _ => true⟩, ⟨"", "test@my-ses-email-domain.example.com"⟩,
    rfl, rfl, rfl⟩

/-- C3: `Route.Match` on the route and the message of `TestRuleMatch`. With the
`From` header value `Steve Mustachio <furriest@…>` the code answers
`(false, no error)` for every address parser, since the literal `src` is
compared with the whole header value; with the bare address as `from` it still
answers `(false, no error)`, since `/.*/` is compared with the `To` address
as a literal. The test expects a match. -/
theorem Match_TestRuleMatch :
    (∀ (lib : Lib) (conf : Config),
      Route.Match lib conf
        { Src := "furriest@imperative.blowsy.mustachio", Dst := "/.*/", SNS := "",
          Forward := false, AllowSuspectMessages := false, Drop := true }
        ["smithereens@reuses.bloodhounds"]
        "Steve Mustachio <furriest@imperative.blowsy.mustachio>" = (false, none)) ∧
    Route.Match testLib (testConf [])
        { Src := "furriest@imperative.blowsy.mustachio", Dst := "/.*/", SNS := "",
          Forward := false, AllowSuspectMessages := false, Drop := true }
        ["smithereens@reuses.bloodhounds"]
        "furriest@imperative.blowsy.mustachio" = (false, none) ∧
    (∃ a, testLib.ParseAddress "Steve Mustachio <furriest@imperative.blowsy.mustachio>" = .ok a ∧
      a.Address = "furriest@imperative.blowsy.mustachio") ∧
    (∃ a, testLib.ParseAddress "smithereens@reuses.bloodhounds" = .ok a) := by
  refine ⟨fun lib conf => ?_, by decide,
    ⟨⟨"Steve Mustachio", "furriest@imperative.blowsy.mustachio"⟩, rfl, rfl⟩,
    ⟨⟨"", "smithereens@reuses.bloodhounds"⟩, rfl⟩⟩
  rw [Match_literal_src lib conf _ _ _ (by decide) (by decide)]
  rw [if_neg (by decide)]

/-! ## Sanitising -/

theorem replaceRuns_underscore_fixed (l : List Char) :
    (∀ b, replaceRuns ['_'] b (replaceRuns ['_'] true l) = replaceRuns ['_'] true l) ∧
    replaceRuns ['_'] false (replaceRuns ['_'] false l) = replaceRuns ['_'] false l := by
  induction l with
  | nil => simp [replaceRuns]
  | cons c cs ih =>
    obtain ⟨ih1, ih2⟩ := ih
    have hu : replaceRegexClass '_' = true := by decide
    by_cases hc : replaceRegexClass c = true
    · have e1 : replaceRuns ['_'] true (c :: cs) = replaceRuns ['_'] true cs := by
        simp [replaceRuns, hc]
      have e2 : replaceRuns ['_'] false (c :: cs) = '_' :: replaceRuns ['_'] true cs := by
        simp [replaceRuns, hc]
      have e3 : ∀ l, replaceRuns ['_'] false ('_' :: l) = '_' :: replaceRuns ['_'] true l := by
        intro l
        simp [replaceRuns, hu]
      refine ⟨fun b => ?_, ?_⟩
      · rw [e1]
        exact ih1 b
      · rw [e2, e3, ih1 true]
    · have e1 : ∀ b l, replaceRuns ['_'] b (c :: l) = c :: replaceRuns ['_'] false l := by
        intro b l
        simp [replaceRuns, hc]
      refine ⟨fun b => ?_, ?_⟩
      · rw [e1, e1, ih2]
      · rw [e1, e1, ih2]

/-- C10: `Sanitize` is idempotent: replacing every run of characters outside
`[A-Za-z0-9]` by `_` and replacing again gives the same string. -/
theorem Sanitize_idempotent (x : String) : Sanitize (Sanitize x) = Sanitize x := by
  unfold Sanitize replaceRegexReplaceAllString
  have h : ("_" : String).data = ['_'] := rfl
  simp only [h]
  rw [(replaceRuns_underscore_fixed x.data).2]

/-! ## Traces -/

theorem TraceExt.refl (P : Call → Prop) (w : World σ) : TraceExt P w w :=
  ⟨[], by simp, by simp⟩

theorem TraceExt.trans {P : Call → Prop} {w1 w2 w3 : World σ} (h12 : TraceExt P w1 w2)
    (h23 : TraceExt P w2 w3) : TraceExt P w1 w3 := by
  obtain ⟨d1, e1, p1⟩ := h12
  obtain ⟨d2, e2, p2⟩ := h23
  refine ⟨d1 ++ d2, by rw [e2, e1, List.append_assoc], fun c hc => ?_⟩
  rcases List.mem_append.mp hc with h | h
  · exact p1 c h
  · exact p2 c h

theorem TraceExt.mono {P Q : Call → Prop} {w1 w2 : World σ} (h : TraceExt P w1 w2)
    (hpq : ∀ c, P c → Q c) : TraceExt Q w1 w2 := by
  obtain ⟨d, e, p⟩ := h
  exact ⟨d, e, fun c hc => hpq c (p c hc)⟩

theorem TraceExt.single {P : Call → Prop} {w1 w2 : World σ} (c : Call)
    (h : w2.trace = w1.trace ++ [c]) (hc : P c) : TraceExt P w1 w2 :=
  ⟨[c], h, fun d hd => by rw [List.mem_singleton.mp hd]; exact hc⟩

/-! ## The operator notification and the virus gate -/

theorem sendErrorEmail_trace (lib : Lib) (env : Env σ) (conf : Config) (msg : String)
    (record : Record) (w : World σ) :
    ((lib.Build (errorEmailBuilder lib conf msg record) ≠ none ∨
        ∃ e, lib.Encode (errorEmailBuilder lib conf msg record) = .error e) ∧
      (sendErrorEmail lib env conf msg record w).2 = w) ∨
    ∃ data, lib.Build (errorEmailBuilder lib conf msg record) = none ∧
      lib.Encode (errorEmailBuilder lib conf msg record) = .ok data ∧
      (sendErrorEmail lib env conf msg record w).2.trace =
        w.trace ++ [Call.sendEmail (errorEmailInput conf data)] := by
  unfold sendErrorEmail
  dsimp only
  cases hb : lib.Build (errorEmailBuilder lib conf msg record) with
  | some e => exact Or.inl ⟨Or.inl (by simp), rfl⟩
  | none =>
    cases he : lib.Encode (errorEmailBuilder lib conf msg record) with
    | error e => exact Or.inl ⟨Or.inr ⟨e, rfl⟩, rfl⟩
    | ok data =>
      refine Or.inr ⟨data, rfl, rfl, ?_⟩
      dsimp only [callSendEmail]
      generalize (env.sendEmail (errorEmailInput conf data) w.ext).1 = r
      cases r <;> rfl

theorem recordBody_virus (lib : Lib) (env : Env σ) (conf : Config) (record : Record)
    (w : World σ) (hv : record.VirusVerdict ≠ "PASS") :
    recordBody lib env conf record w =
      (.ret .nil, (sendErrorEmail lib env conf "Virus email, not processing" record w).2) := by
  have h : virus record = true := by simp [virus, hv]
  simp [recordBody, h]

/-! ## The rule loop -/

theorem ruleLoop_cons_skip (lib : Lib) (env : Env σ) (conf : Config) (record : Record)
    (rule : Route) (rest : List Route) (skip : Bool) (w : World σ)
    (h : ¬ rule.matches lib conf record) :
    ruleLoop lib env conf record (rule :: rest) skip w =
      ruleLoop lib env conf record rest skip w := by
  unfold Route.matches at h
  rw [ruleLoop]
  rcases hm : rule.Match lib conf record.To (fromAddr lib record) with ⟨b, e⟩
  cases e with
  | some e => cases b <;> rfl
  | none =>
    cases b with
    | false => rfl
    | true => exact absurd hm h

theorem ruleLoop_cons_match (lib : Lib) (env : Env σ) (conf : Config) (record : Record)
    (rule : Route) (rest : List Route) (skip : Bool) (w : World σ)
    (h : rule.matches lib conf record) :
    ruleLoop lib env conf record (rule :: rest) skip w =
      if rule.Drop then (.ret .nil, w)
      else if decide ((suspect record).length > 0) && !rule.AllowSuspectMessages then
        (.ret (.err ("matched_rule_but_suspect " ++ record.MessageID)), w)
      else
        match publishSNS lib env conf rule.SNS record w with
        | (.nil, w1) => ruleLoop lib env conf record rest (skip || !rule.Forward) w1
        | (failure, w1) => (.ret failure, w1) := by
  unfold Route.matches at h
  rw [ruleLoop, h]

theorem publishSNS_trace (lib : Lib) (env : Env σ) (conf : Config) (topic : String)
    (record : Record) (w : World σ) :
    TraceExt (fun c => (∃ b k, c = Call.s3GetObjReq b k) ∨ ∃ m, c = Call.snsPublish m topic)
      w (publishSNS lib env conf topic record w).2 := by
  unfold publishSNS presignMessage callGetObjReq
  generalize (env.s3GetObjReq conf.Bucket.Name
    (lib.PathJoin [conf.Bucket.MsgPrefix, record.MessageID]) w.ext).1 = r
  cases r with
  | error e => exact TraceExt.single _ rfl (Or.inl ⟨_, _, rfl⟩)
  | ok url =>
    dsimp only
    cases lib.MarshalMsg _ with
    | error e => exact TraceExt.single _ rfl (Or.inl ⟨_, _, rfl⟩)
    | ok payload =>
      dsimp only [callPublish]
      generalize (env.snsPublish payload topic _).1 = r2
      have hstep : ∀ w2 : World σ, w2.trace = (w.trace ++ [Call.s3GetObjReq conf.Bucket.Name
          (lib.PathJoin [conf.Bucket.MsgPrefix, record.MessageID])]) ++
            [Call.snsPublish payload topic] →
          TraceExt (fun c => (∃ b k, c = Call.s3GetObjReq b k) ∨
            ∃ m, c = Call.snsPublish m topic) w w2 := by
        intro w2 h2
        refine ⟨[Call.s3GetObjReq conf.Bucket.Name
          (lib.PathJoin [conf.Bucket.MsgPrefix, record.MessageID]),
          Call.snsPublish payload topic], by rw [h2]; simp, fun c hc => ?_⟩
        simp only [List.mem_cons, List.mem_singleton, List.not_mem_nil, or_false] at hc
        rcases hc with rfl | rfl
        · exact Or.inl ⟨_, _, rfl⟩
        · exact Or.inr ⟨_, rfl⟩
      cases r2 <;> exact hstep _ rfl

theorem publishSNS_no_panic (lib : Lib) (env : Env σ) (conf : Config) (topic : String)
    (record : Record) (w : World σ) :
    (publishSNS lib env conf topic record w).1 ≠ .panic := by
  unfold publishSNS presignMessage callGetObjReq
  generalize (env.s3GetObjReq conf.Bucket.Name
    (lib.PathJoin [conf.Bucket.MsgPrefix, record.MessageID]) w.ext).1 = r
  cases r with
  | error e => simp
  | ok url =>
    dsimp only
    cases lib.MarshalMsg _ with
    | error e => simp
    | ok payload =>
      dsimp only [callPublish]
      generalize (env.snsPublish payload topic _).1 = r2
      cases r2 <;> simp

theorem notifiesOnly_mono (lib : Lib) (conf : Config) (record : Record)
    {r1 r2 : List Route} (h : ∀ q ∈ r1, q ∈ r2) (c : Call)
    (hc : notifiesOnly lib conf record r1 c) : notifiesOnly lib conf record r2 c := by
  rcases hc with hc | ⟨m, rule, hr, hm, hc⟩
  · exact Or.inl hc
  · exact Or.inr ⟨m, rule, h rule hr, hm, hc⟩

theorem notifiesOnly_kind (lib : Lib) (conf : Config) (record : Record) (routes : List Route)
    (c : Call) (hc : notifiesOnly lib conf record routes c) :
    c.isSend = false ∧ c.isStoreWrite = false := by
  rcases hc with ⟨b, k, rfl⟩ | ⟨m, rule, _, _, rfl⟩ <;> exact ⟨rfl, rfl⟩

theorem ruleLoop_append (lib : Lib) (env : Env σ) (conf : Config) (record : Record)
    (pre tail : List Route) (skip : Bool) (w : World σ) :
    ruleLoop lib env conf record (pre ++ tail) skip w =
      match ruleLoop lib env conf record pre skip w with
      | (.ret result, w1) => (.ret result, w1)
      | (.done skip1, w1) => ruleLoop lib env conf record tail skip1 w1 := by
  induction pre generalizing skip w with
  | nil => simp [ruleLoop]
  | cons rule rest ih =>
    by_cases hm : rule.matches lib conf record
    · rw [List.cons_append, ruleLoop_cons_match lib env conf record rule _ skip w hm,
        ruleLoop_cons_match lib env conf record rule _ skip w hm]
      by_cases hd : rule.Drop = true
      · simp [hd]
      · simp only [hd, if_false]
        by_cases hs : (decide ((suspect record).length > 0) && !rule.AllowSuspectMessages) = true
        · simp [hs]
        · simp only [hs, if_false]
          rcases hp : publishSNS lib env conf rule.SNS record w with ⟨o, w1⟩
          cases o with
          | nil => exact ih _ _
          | err e => rfl
          | panic => rfl
    · rw [List.cons_append, ruleLoop_cons_skip lib env conf record rule _ skip w hm,
        ruleLoop_cons_skip lib env conf record rule _ skip w hm]
      exact ih _ _

theorem ruleLoop_trace (lib : Lib) (env : Env σ) (conf : Config) (record : Record)
    (routes : List Route) (skip : Bool) (w : World σ) :
    TraceExt (notifiesOnly lib conf record routes) w
      (ruleLoop lib env conf record routes skip w).2 := by
  induction routes generalizing skip w with
  | nil => exact TraceExt.refl _ _
  | cons rule rest ih =>
    have hrest : ∀ c, notifiesOnly lib conf record rest c →
        notifiesOnly lib conf record (rule :: rest) c :=
      notifiesOnly_mono lib conf record (fun q hq => List.mem_cons_of_mem _ hq)
    by_cases hm : rule.matches lib conf record
    · rw [ruleLoop_cons_match lib env conf record rule _ skip w hm]
      by_cases hd : rule.Drop = true
      · simp only [hd, if_true]
        exact TraceExt.refl _ _
      · simp only [hd, if_false]
        by_cases hs : (decide ((suspect record).length > 0) && !rule.AllowSuspectMessages) = true
        · simp only [hs, if_true]
          exact TraceExt.refl _ _
        · simp only [hs, if_false]
          have hp := publishSNS_trace lib env conf rule.SNS record w
          have hp2 : TraceExt (notifiesOnly lib conf record (rule :: rest)) w
              (publishSNS lib env conf rule.SNS record w).2 :=
            hp.mono (fun c hc => by
              rcases hc with hc | ⟨m, rfl⟩
              · exact Or.inl hc
              · exact Or.inr ⟨m, rule, List.mem_cons_self _ _, hm, rfl⟩)
          rcases hq : publishSNS lib env conf rule.SNS record w with ⟨o, w1⟩
          rw [hq] at hp2
          cases o with
          | nil => exact hp2.trans ((ih _ _).mono hrest)
          | err e => exact hp2
          | panic => exact hp2
    · rw [ruleLoop_cons_skip lib env conf record rule _ skip w hm]
      exact (ih _ _).mono hrest

theorem ruleLoop_no_match (lib : Lib) (env : Env σ) (conf : Config) (record : Record)
    (routes : List Route) (skip : Bool) (w : World σ)
    (h : ∀ q ∈ routes, ¬ q.matches lib conf record) :
    ruleLoop lib env conf record routes skip w = (.done skip, w) := by
  induction routes with
  | nil => rfl
  | cons rule rest ih =>
    rw [ruleLoop_cons_skip lib env conf record rule _ skip w (h rule (List.mem_cons_self _ _))]
    exact ih (fun q hq => h q (List.mem_cons_of_mem _ hq))

theorem ruleLoop_done_skip (lib : Lib) (env : Env σ) (conf : Config) (record : Record)
    (routes : List Route) (skip : Bool) (w : World σ) (skip1 : Bool) (w1 : World σ)
    (h : ruleLoop lib env conf record routes skip w = (.done skip1, w1)) :
    skip1 = true ↔
      (skip = true ∨ ∃ rule ∈ routes, rule.matches lib conf record ∧ rule.Forward = false) := by
  induction routes generalizing skip w with
  | nil =>
    simp only [ruleLoop, Prod.mk.injEq, RulesResult.done.injEq] at h
    simp [h.1]
  | cons rule rest ih =>
    by_cases hm : rule.matches lib conf record
    · rw [ruleLoop_cons_match lib env conf record rule _ skip w hm] at h
      by_cases hd : rule.Drop = true
      · simp [hd] at h
      · simp only [hd, if_false] at h
        by_cases hs : (decide ((suspect record).length > 0) && !rule.AllowSuspectMessages) = true
        · simp [hs] at h
        · simp only [hs, if_false] at h
          rcases hp : publishSNS lib env conf rule.SNS record w with ⟨o, w2⟩
          rw [hp] at h
          cases o with
          | nil =>
            rw [ih _ _ h]
            constructor
            · rintro (h1 | ⟨q, hq, hqm, hqf⟩)
              · rcases Bool.or_eq_true_iff.mp h1 with h2 | h2
                · exact Or.inl h2
                · exact Or.inr ⟨rule, List.mem_cons_self _ _, hm, by simpa using h2⟩
              · exact Or.inr ⟨q, List.mem_cons_of_mem _ hq, hqm, hqf⟩
            · rintro (h1 | ⟨q, hq, hqm, hqf⟩)
              · exact Or.inl (by simp [h1])
              · rcases List.mem_cons.mp hq with rfl | hq
                · exact Or.inl (by simp [hqf])
                · exact Or.inr ⟨q, hq, hqm, hqf⟩
          | err e => simp at h
          | panic => simp at h
    · rw [ruleLoop_cons_skip lib env conf record rule _ skip w hm] at h
      rw [ih _ _ h]
      constructor
      · rintro (h1 | ⟨q, hq, hqm, hqf⟩)
        · exact Or.inl h1
        · exact Or.inr ⟨q, List.mem_cons_of_mem _ hq, hqm, hqf⟩
      · rintro (h1 | ⟨q, hq, hqm, hqf⟩)
        · exact Or.inl h1
        · rcases List.mem_cons.mp hq with rfl | hq
          · exact absurd hqm hm
          · exact Or.inr ⟨q, hq, hqm, hqf⟩

theorem ruleLoop_no_drop (lib : Lib) (env : Env σ) (conf : Config) (record : Record)
    (routes : List Route) (skip : Bool) (w : World σ)
    (h : ∀ q ∈ routes, q.matches lib conf record → q.Drop = false) :
    (∃ msg, (ruleLoop lib env conf record routes skip w).1 = .ret (.err msg)) ∨
    ∃ skip1, (ruleLoop lib env conf record routes skip w).1 = .done skip1 := by
  induction routes generalizing skip w with
  | nil => exact Or.inr ⟨skip, rfl⟩
  | cons rule rest ih =>
    have hrest : ∀ q ∈ rest, q.matches lib conf record → q.Drop = false :=
      fun q hq => h q (List.mem_cons_of_mem _ hq)
    by_cases hm : rule.matches lib conf record
    · rw [ruleLoop_cons_match lib env conf record rule _ skip w hm]
      have hd : rule.Drop = false := h rule (List.mem_cons_self _ _) hm
      simp only [hd, Bool.false_eq_true, if_false]
      by_cases hs : (decide ((suspect record).length > 0) && !rule.AllowSuspectMessages) = true
      · simp only [hs, if_true]
        exact Or.inl ⟨_, rfl⟩
      · simp only [hs, if_false]
        have hnp := publishSNS_no_panic lib env conf rule.SNS record w
        rcases hp : publishSNS lib env conf rule.SNS record w with ⟨o, w2⟩
        rw [hp] at hnp
        cases o with
        | nil => exact ih _ _ hrest
        | err e => exact Or.inl ⟨e, rfl⟩
        | panic => exact absurd rfl hnp
    · rw [ruleLoop_cons_skip lib env conf record rule _ skip w hm]
      exact ih _ _ hrest

theorem recordBody_gates (lib : Lib) (env : Env σ) (conf : Config) (record : Record)
    (w : World σ) (hg : passesGates lib record) :
    recordBody lib env conf record w =
      match ruleLoop lib env conf record conf.Routes false w with
      | (.ret result, w1) => (.ret result, w1)
      | (.done true, w1) => (.next none, w1)
      | (.done false, w1) => stepOf (dispatch lib env conf record w1) := by
  obtain ⟨hv, hd⟩ := hg
  have h1 : virus record = false := by simp [virus, hv]
  unfold recordBody
  rw [h1]
  simp only [Bool.false_eq_true, if_false, hd]
  rcases ruleLoop lib env conf record conf.Routes false w with ⟨r, w1⟩
  cases r with
  | ret result => rfl
  | done sk =>
    cases sk with
    | true => rfl
    | false =>
      dsimp only
      unfold stepOf
      rcases dispatch lib env conf record w1 with ⟨o, w2⟩
      cases o <;> rfl

theorem toOutbound_iff (lib : Lib) (conf : Config) (record : Record) :
    toOutbound lib conf record = true ↔
      someParsedTo lib record.To (fun a => a = conf.OutboundAddress) := by
  unfold toOutbound someParsedTo
  rw [List.any_eq_true]
  constructor
  · rintro ⟨t, ht, h⟩
    cases hp : lib.ParseAddress t with
    | error e => rw [hp] at h; simp at h
    | ok a =>
      rw [hp] at h
      exact ⟨t, ht, a, hp, by simpa using h⟩
  · rintro ⟨t, ht, a, hp, h⟩
    exact ⟨t, ht, by rw [hp]; simpa using h⟩

/-! ## Drop routes -/

theorem recordLoop_ret (lib : Lib) (env : Env σ) (conf : Config) (record : Record)
    (rest : List Record) (errors : List String) (w w1 : World σ) (result : Outcome)
    (h : recordBody lib env conf record w = (.ret result, w1)) :
    recordLoop lib env conf (record :: rest) errors w = (result, w1) := by
  rw [recordLoop, h]

/-- C4 as stated fails: with a matching notifying route configured before a
matching drop route, `Handler` publishes the notification of the first route
before the drop route ends the message; and a message that a drop route
matches but that stops at the virus gate or at the sender-loop gate is
answered with the operator notification, which is a send. -/
theorem drop_after_notify_publishes :
    ((testRoute true true true).Drop = true ∧
      (testRoute true true true).matches testLib
        (testConf [testRoute true true false, testRoute true true true])
        (testRecord "m1" "PASS" "PASS" "PASS") ∧
      (Handler testLib fakeEnv (testConf [testRoute true true false, testRoute true true true])
          [testRecord "m1" "PASS" "PASS" "PASS"] (fakeStart testStore ["id1"])).2.trace =
        [Call.s3GetObjReq "westerly-tapir" "/periphery-corollas/m1",
         Call.snsPublish "id: m1" "hornet-breakwaters"]) ∧
    ((testRoute true true true).matches testLib (testConf [testRoute true true true])
        (testRecord "m1" "PASS" "PASS" "FAIL") ∧
      (Handler testLib fakeEnv (testConf [testRoute true true true])
          [testRecord "m1" "PASS" "PASS" "FAIL"]
          (fakeStart testStore ["id1"])).2.trace.map Call.isSend = [true]) ∧
    ((daemonRoute true true).Drop = true ∧
      (daemonRoute true true).matches testLib (testConf [daemonRoute true true])
        (daemonRecord "m1") ∧
      (Handler testLib fakeEnv (testConf [daemonRoute true true]) [daemonRecord "m1"]
          (fakeStart testStore ["id1"])).2.trace.map Call.isSend = [true]) :=
  ⟨⟨rfl, by unfold Route.matches; decide, by decide⟩,
    ⟨by unfold Route.matches; decide, by decide⟩,
    ⟨rfl, by unfold Route.matches; decide, by decide⟩⟩

/-- C4, amended: for a record that passes the virus and sender-loop gates and
a configuration in which a matching drop route `d` stands after the routes
`pre`, `Handler` returns as soon as it reaches the record, without a workflow:
the record causes no send and no store write, and the only notifications
published are those of matching routes of `pre`; when no route of `pre`
matches, nothing at all is called and `Handler` returns `nil`. -/
theorem drop_route_suppresses (lib : Lib) (env : Env σ) (conf : Config) (record : Record)
    (w : World σ) (pre : List Route) (d : Route) (post : List Route)
    (hg : passesGates lib record) (hroutes : conf.Routes = pre ++ d :: post)
    (hm : d.matches lib conf record) (hd : d.Drop = true) :
    ∃ result w1,
      (∀ rest errors, recordLoop lib env conf (record :: rest) errors w = (result, w1)) ∧
      TraceExt (fun c => c.isSend = false ∧ c.isStoreWrite = false ∧
        notifiesOnly lib conf record pre c) w w1 ∧
      ((∀ q ∈ pre, ¬ q.matches lib conf record) → result = .nil ∧ w1 = w) := by
  have hbody : ∃ result w1, recordBody lib env conf record w = (.ret result, w1) ∧
      TraceExt (fun c => c.isSend = false ∧ c.isStoreWrite = false ∧
        notifiesOnly lib conf record pre c) w w1 ∧
      ((∀ q ∈ pre, ¬ q.matches lib conf record) → result = .nil ∧ w1 = w) := by
    rw [recordBody_gates lib env conf record w hg, hroutes, ruleLoop_append]
    have htr := ruleLoop_trace lib env conf record pre false w
    have htr2 : TraceExt (fun c => c.isSend = false ∧ c.isStoreWrite = false ∧
        notifiesOnly lib conf record pre c) w (ruleLoop lib env conf record pre false w).2 :=
      htr.mono (fun c hc =>
        ⟨(notifiesOnly_kind lib conf record pre c hc).1,
          (notifiesOnly_kind lib conf record pre c hc).2, hc⟩)
    have hnm := ruleLoop_no_match lib env conf record pre false w
    rcases hp : ruleLoop lib env conf record pre false w with ⟨r, w1⟩
    rw [hp] at htr2 hnm
    cases r with
    | ret result =>
      refine ⟨result, w1, rfl, htr2, fun hno => ?_⟩
      have := hnm hno
      simp at this
    | done sk =>
      dsimp only
      rw [ruleLoop_cons_match lib env conf record d post sk w1 hm]
      simp only [hd, if_true]
      refine ⟨.nil, w1, rfl, htr2, fun hno => ⟨rfl, ?_⟩⟩
      have := hnm hno
      simp only [Prod.mk.injEq] at this
      exact this.2
  obtain ⟨result, w1, hb, htr, hno⟩ := hbody
  exact ⟨result, w1, fun rest errors => recordLoop_ret lib env conf record rest errors w w1 _ hb,
    htr, hno⟩

/-- C4 amended, evaluated on a configuration whose only route is a matching
drop route: `Handler` returns `nil` and calls nothing. -/
theorem drop_route_suppresses_witness :
    passesGates testLib (testRecord "m1" "PASS" "PASS" "PASS") ∧
    (testRoute true true true).matches testLib (testConf [testRoute true true true])
      (testRecord "m1" "PASS" "PASS" "PASS") ∧
    ∃ result w1,
      (∀ rest errors, recordLoop testLib fakeEnv (testConf [testRoute true true true])
        (testRecord "m1" "PASS" "PASS" "PASS" :: rest) errors (fakeStart testStore ["id1"]) =
          (result, w1)) ∧
      TraceExt (fun c => c.isSend = false ∧ c.isStoreWrite = false ∧
        notifiesOnly testLib (testConf [testRoute true true true])
          (testRecord "m1" "PASS" "PASS" "PASS") [] c) (fakeStart testStore ["id1"]) w1 ∧
      ((∀ q ∈ ([] : List Route), ¬ q.matches testLib (testConf [testRoute true true true])
          (testRecord "m1" "PASS" "PASS" "PASS")) →
        result = .nil ∧ w1 = fakeStart testStore ["id1"]) :=
  ⟨⟨rfl, by decide⟩, by unfold Route.matches; decide,
    drop_route_suppresses testLib fakeEnv (testConf [testRoute true true true])
      (testRecord "m1" "PASS" "PASS" "PASS") (fakeStart testStore ["id1"]) []
      (testRoute true true true) [] ⟨rfl, by decide⟩ rfl (by unfold Route.matches; decide) rfl⟩

/-! ## Suspect messages -/

theorem suspect_pos (record : Record)
    (hs : record.DKIMVerdict ≠ "PASS" ∨ record.SPFVerdict ≠ "PASS") :
    (suspect record).length > 0 := by
  unfold suspect
  rcases hs with h | h
  · simp [h]
  · by_cases h1 : record.DKIMVerdict = "PASS" <;> simp [h, h1]

/-- C5 as stated fails: a record with a failed virus verdict that matches a
route with `allowSuspect=false` is answered with the operator notification (a
send) and `Handler` returns `nil`; so is a record with a failed DKIM verdict
sent by the mailer daemon; and a record with a failed DKIM verdict whose
matching route with `allowSuspect=false` is also a drop route makes `Handler`
return `nil`. -/
theorem suspect_match_without_error :
    ((testRecord "m1" "PASS" "PASS" "FAIL").VirusVerdict ≠ "PASS" ∧
      (testRoute true false false).AllowSuspectMessages = false ∧
      (testRoute true false false).matches testLib (testConf [testRoute true false false])
        (testRecord "m1" "PASS" "PASS" "FAIL") ∧
      (Handler testLib fakeEnv (testConf [testRoute true false false])
        [testRecord "m1" "PASS" "PASS" "FAIL"] (fakeStart testStore ["id1"])).1 = .nil ∧
      (Handler testLib fakeEnv (testConf [testRoute true false false])
        [testRecord "m1" "PASS" "PASS" "FAIL"]
        (fakeStart testStore ["id1"])).2.trace.map Call.isSend = [true]) ∧
    (({ daemonRecord "m1" with DKIMVerdict := "FAIL" } : Record).DKIMVerdict ≠ "PASS" ∧
      (daemonRoute false false).AllowSuspectMessages = false ∧
      (daemonRoute false false).matches testLib (testConf [daemonRoute false false])
        { daemonRecord "m1" with DKIMVerdict := "FAIL" } ∧
      (Handler testLib fakeEnv (testConf [daemonRoute false false])
        [{ daemonRecord "m1" with DKIMVerdict := "FAIL" }] (fakeStart testStore ["id1"])).1 =
          .nil ∧
      (Handler testLib fakeEnv (testConf [daemonRoute false false])
        [{ daemonRecord "m1" with DKIMVerdict := "FAIL" }]
        (fakeStart testStore ["id1"])).2.trace.map Call.isSend = [true]) ∧
    ((testRecord "m1" "FAIL" "PASS" "PASS").DKIMVerdict ≠ "PASS" ∧
      (testRoute true false true).AllowSuspectMessages = false ∧
      (testRoute true false true).matches testLib (testConf [testRoute true false true])
        (testRecord "m1" "FAIL" "PASS" "PASS") ∧
      (Handler testLib fakeEnv (testConf [testRoute true false true])
        [testRecord "m1" "FAIL" "PASS" "PASS"] (fakeStart testStore ["id1"])).1 = .nil) :=
  ⟨⟨by decide, rfl, by unfold Route.matches; decide, by decide, by decide⟩,
    ⟨by decide, rfl, by unfold Route.matches; decide, by decide, by decide⟩,
    ⟨by decide, rfl, by unfold Route.matches; decide, by decide⟩⟩

/-- C5, amended: for a record that passes the virus and sender-loop gates,
whose DKIM or SPF verdict is not `"PASS"`, and that matches a route `r` with
`allowSuspect=false` that is not a drop route and has no matching drop route
before it, `Handler` returns an error as soon as it reaches the record, and the
record causes no send and no store write. -/
theorem suspect_route_errors (lib : Lib) (env : Env σ) (conf : Config) (record : Record)
    (w : World σ) (pre : List Route) (r : Route) (post : List Route)
    (hg : passesGates lib record)
    (hs : record.DKIMVerdict ≠ "PASS" ∨ record.SPFVerdict ≠ "PASS")
    (hroutes : conf.Routes = pre ++ r :: post)
    (hm : r.matches lib conf record) (ha : r.AllowSuspectMessages = false)
    (hd : r.Drop = false)
    (hpre : ∀ q ∈ pre, q.matches lib conf record → q.Drop = false) :
    ∃ msg w1,
      (∀ rest errors, recordLoop lib env conf (record :: rest) errors w = (.err msg, w1)) ∧
      TraceExt (fun c => c.isSend = false ∧ c.isStoreWrite = false) w w1 := by
  have hbody : ∃ msg w1, recordBody lib env conf record w = (.ret (.err msg), w1) ∧
      TraceExt (fun c => c.isSend = false ∧ c.isStoreWrite = false) w w1 := by
    rw [recordBody_gates lib env conf record w hg, hroutes, ruleLoop_append]
    have htr := (ruleLoop_trace lib env conf record pre false w).mono
      (notifiesOnly_kind lib conf record pre)
    have hnd := ruleLoop_no_drop lib env conf record pre false w hpre
    rcases hp : ruleLoop lib env conf record pre false w with ⟨res, w1⟩
    rw [hp] at htr hnd
    cases res with
    | ret result =>
      rcases hnd with ⟨msg, h⟩ | ⟨sk, h⟩
      · simp only [RulesResult.ret.injEq] at h
        subst h
        exact ⟨msg, w1, rfl, htr⟩
      · simp at h
    | done sk =>
      dsimp only
      rw [ruleLoop_cons_match lib env conf record r post sk w1 hm]
      have hpos := suspect_pos record hs
      simp only [hd, Bool.false_eq_true, if_false, ha, Bool.not_false, Bool.and_true,
        decide_eq_true_eq, hpos, if_true]
      exact ⟨_, w1, rfl, htr⟩
  obtain ⟨msg, w1, hb, htr⟩ := hbody
  exact ⟨msg, w1, fun rest errors => recordLoop_ret lib env conf record rest errors w w1 _ hb,
    htr⟩

/-- C5 amended, evaluated on a record with a failed DKIM verdict and the route of
`TestLambdaEmail` (`allowSuspect=false`, no drop). -/
theorem suspect_route_errors_witness :
    passesGates testLib (testRecord "m1" "FAIL" "PASS" "PASS") ∧
    ((testRecord "m1" "FAIL" "PASS" "PASS").DKIMVerdict ≠ "PASS" ∨
      (testRecord "m1" "FAIL" "PASS" "PASS").SPFVerdict ≠ "PASS") ∧
    (testRoute true false false).matches testLib (testConf [testRoute true false false])
      (testRecord "m1" "FAIL" "PASS" "PASS") ∧
    ∃ msg w1,
      (∀ rest errors, recordLoop testLib fakeEnv (testConf [testRoute true false false])
        (testRecord "m1" "FAIL" "PASS" "PASS" :: rest) errors (fakeStart testStore ["id1"]) =
          (.err msg, w1)) ∧
      TraceExt (fun c => c.isSend = false ∧ c.isStoreWrite = false)
        (fakeStart testStore ["id1"]) w1 :=
  ⟨⟨rfl, by decide⟩, Or.inl (by decide), by unfold Route.matches; decide,
    suspect_route_errors testLib fakeEnv (testConf [testRoute true false false])
      (testRecord "m1" "FAIL" "PASS" "PASS") (fakeStart testStore ["id1"]) []
      (testRoute true false false) [] ⟨rfl, by decide⟩ (Or.inl (by decide)) rfl
      (by unfold Route.matches; decide) rfl rfl (fun q hq => absurd hq (List.not_mem_nil q))⟩

/-! ## Batches -/

/-- C8: `Handler` on batches of two records whose first record stops at the
virus gate, at the sender-loop gate, or at a matched drop route. In each case
the `return nil` of the gate ends the whole invocation: the second record
`m1`, which alone is notified and forwarded (`testForwardCalls`), causes no
call at all. -/
theorem gate_ends_batch :
    (Handler testLib fakeEnv (testConf [testRoute true false false])
        [testRecord "m1" "PASS" "PASS" "PASS"] (fakeStart testStore ["id1"])).2.trace =
      testForwardCalls ∧
    (Handler testLib fakeEnv (testConf [testRoute true false false])
        [testRecord "m2" "PASS" "PASS" "FAIL", testRecord "m1" "PASS" "PASS" "PASS"]
        (fakeStart testStore ["id1"])).2.trace.map Call.isSend = [true] ∧
    (Handler testLib fakeEnv (testConf [testRoute true false false])
        [daemonRecord "m2", testRecord "m1" "PASS" "PASS" "PASS"]
        (fakeStart testStore ["id1"])).2.trace.map Call.isSend = [true] ∧
    (Handler testLib fakeEnv (testConf [testDropRoute, testRoute true false false])
        [{ testRecord "m2" "PASS" "PASS" "PASS" with
            To := ["drop@my-ses-email-domain.example.com"] },
         testRecord "m1" "PASS" "PASS" "PASS"]
        (fakeStart testStore ["id1"])).2.trace = [] :=
  ⟨by decide, by decide, by decide, by decide⟩

/-- C9: `Handler` on a batch whose first record fails in its forward-to-private
workflow (its raw message is not in the store) and whose second record stops
at the virus gate: the workflow error is appended to `errors`, and the
`return nil` of the gate then returns `nil` for the invocation. The first
record alone makes `Handler` return the aggregate error. -/
theorem workflow_error_lost :
    (forwardToGmail testLib fakeEnv (testConf []) (testRecord "m0" "PASS" "PASS" "PASS")
        (fakeStart testStore ["id1"])).1 = .err "GetMessage err=\"NoSuchKey\"" ∧
    (Handler testLib fakeEnv (testConf []) [testRecord "m0" "PASS" "PASS" "PASS"]
        (fakeStart testStore ["id1"])).1 = .err "[GetMessage err=\"NoSuchKey\"]" ∧
    (Handler testLib fakeEnv (testConf [])
        [testRecord "m0" "PASS" "PASS" "PASS", testRecord "m2" "PASS" "PASS" "FAIL"]
        (fakeStart testStore ["id1"])).1 = .nil :=
  ⟨by decide, by decide, by decide⟩

/-! ## Sanitising: runs, alphabet, order -/

theorem maximalRuns_join (l : List Char) : ((maximalRuns l).map Prod.snd).flatten = l := by
  induction l with
  | nil => rfl
  | cons c cs ih =>
    rw [maximalRuns]
    rcases h : maximalRuns cs with _ | ⟨⟨tag, run⟩, rest⟩
    · rw [h] at ih
      simp only [List.map_nil, List.flatten_nil] at ih
      simp [← ih]
    · rw [h] at ih
      simp only [List.map_cons, List.flatten_cons] at ih
      by_cases ht : tag = replaceRegexClass c
      · simp [ht, ← ih]
      · simp [ht, ← ih]

theorem maximalRuns_uniform (l : List Char) :
    ∀ r ∈ maximalRuns l, r.2 ≠ [] ∧ ∀ c ∈ r.2, replaceRegexClass c = r.1 := by
  induction l with
  | nil => simp [maximalRuns]
  | cons c cs ih =>
    rw [maximalRuns]
    rcases h : maximalRuns cs with _ | ⟨⟨tag, run⟩, rest⟩
    · simp
    · rw [h] at ih
      have h0 := ih (tag, run) (List.mem_cons_self _ _)
      have hrest : ∀ r ∈ rest, r.2 ≠ [] ∧ ∀ c ∈ r.2, replaceRegexClass c = r.1 :=
        fun r hr => ih r (List.mem_cons_of_mem _ hr)
      by_cases ht : tag = replaceRegexClass c
      · simp only [ht, if_true]
        intro r hr
        rcases List.mem_cons.mp hr with rfl | hr
        · refine ⟨by simp, fun d hd => ?_⟩
          rcases List.mem_cons.mp hd with rfl | hd
          · rfl
          · rw [h0.2 d hd, ht]
        · exact hrest r hr
      · simp only [ht, if_false]
        intro r hr
        rcases List.mem_cons.mp hr with rfl | hr
        · exact ⟨by simp, fun d hd => by rw [List.mem_singleton.mp hd]⟩
        · exact ih r hr

theorem maximalRuns_alternate (l : List Char) :
    List.Chain' (fun r s : Bool × List Char => r.1 ≠ s.1) (maximalRuns l) := by
  induction l with
  | nil => simp [maximalRuns]
  | cons c cs ih =>
    rw [maximalRuns]
    rcases h : maximalRuns cs with _ | ⟨⟨tag, run⟩, rest⟩
    · simp
    · rw [h] at ih
      by_cases ht : tag = replaceRegexClass c
      · simp only [ht, if_true]
        rw [List.chain'_cons'] at ih ⊢
        exact ⟨fun y hy => by simpa [ht] using ih.1 y hy, ih.2⟩
      · simp only [ht, if_false]
        rw [List.chain'_cons']
        exact ⟨fun y hy => by
          simp only [List.head?_cons, Option.mem_def, Option.some.injEq] at hy
          subst hy
          exact fun hc => ht hc.symm, ih⟩

theorem replaceRuns_by_runs (l : List Char) (b : Bool) :
    replaceRuns ['_'] b l =
      match maximalRuns l with
      | [] => []
      | (tag, run) :: rest =>
        (if tag then (if b then [] else ['_']) else run) ++
          (rest.map (fun r => if r.1 then ['_'] else r.2)).flatten := by
  induction l generalizing b with
  | nil => rfl
  | cons c cs ih =>
    rw [maximalRuns]
    rcases h : maximalRuns cs with _ | ⟨⟨tag, run⟩, rest⟩
    · have hcs : cs = [] := by
        have := maximalRuns_join cs
        rw [h] at this
        simpa using this.symm
      subst hcs
      cases hk : replaceRegexClass c <;> cases b <;> simp [replaceRuns, hk]
    · have ih1 := ih true
      have ih2 := ih false
      rw [h] at ih1 ih2
      dsimp only at ih1 ih2
      cases hk : replaceRegexClass c <;> cases tag <;> cases b <;>
        simp [replaceRuns, hk, ih1, ih2]

theorem replaceRuns_alphabet (l : List Char) (b : Bool) :
    ∀ c ∈ replaceRuns ['_'] b l, replaceRegexClass c = false ∨ c = '_' := by
  induction l generalizing b with
  | nil => simp [replaceRuns]
  | cons d ds ih =>
    intro c hc
    cases hk : replaceRegexClass d with
    | true =>
      cases b with
      | true =>
        simp only [replaceRuns, hk, if_true] at hc
        exact ih true c hc
      | false =>
        simp only [replaceRuns, hk, if_true, Bool.false_eq_true, if_false,
          List.singleton_append, List.mem_cons] at hc
        rcases hc with rfl | hc
        · exact Or.inr rfl
        · exact ih true c hc
    | false =>
      simp only [replaceRuns, hk, Bool.false_eq_true, if_false, List.mem_cons] at hc
      rcases hc with rfl | hc
      · exact Or.inl hk
      · exact ih false c hc

theorem replaceRuns_keeps_alnum (l : List Char) (b : Bool) :
    (replaceRuns ['_'] b l).filter (fun c => !replaceRegexClass c) =
      l.filter (fun c => !replaceRegexClass c) := by
  have hu : replaceRegexClass '_' = true := by decide
  induction l generalizing b with
  | nil => rfl
  | cons d ds ih =>
    cases hk : replaceRegexClass d <;> cases b <;>
      simp [replaceRuns, hk, hu, ih, List.filter_cons]

theorem replaceRuns_no_double (l : List Char) :
    List.Chain' (fun a b : Char => ¬ (a = '_' ∧ b = '_')) (replaceRuns ['_'] false l) ∧
    List.Chain' (fun a b : Char => ¬ (a = '_' ∧ b = '_')) (replaceRuns ['_'] true l) ∧
    (replaceRuns ['_'] true l).head? ≠ some '_' := by
  have hu : replaceRegexClass '_' = true := by decide
  induction l with
  | nil => simp [replaceRuns]
  | cons d ds ih =>
    obtain ⟨ihf, iht, ihh⟩ := ih
    cases hk : replaceRegexClass d with
    | true =>
      refine ⟨?_, ?_, ?_⟩
      · simp only [replaceRuns, hk, if_true, Bool.false_eq_true, if_false, List.singleton_append]
        rw [List.chain'_cons']
        refine ⟨fun y hy hc => ihh ?_, iht⟩
        rw [Option.mem_def] at hy
        rw [hy, hc.2]
      · simpa only [replaceRuns, hk, if_true] using iht
      · simpa only [replaceRuns, hk, if_true] using ihh
    | false =>
      have hd : d ≠ '_' := fun h => by rw [h, hu] at hk; cases hk
      refine ⟨?_, ?_, ?_⟩
      · simp only [replaceRuns, hk, Bool.false_eq_true, if_false]
        rw [List.chain'_cons']
        exact ⟨fun y _ hc => hd hc.1, ihf⟩
      · simp only [replaceRuns, hk, Bool.false_eq_true, if_false]
        rw [List.chain'_cons']
        exact ⟨fun y _ hc => hd hc.1, ihf⟩
      · simp only [replaceRuns, hk, Bool.false_eq_true, if_false, List.head?_cons, ne_eq,
          Option.some.injEq]
        exact hd

/-- C11: for every input string, `Sanitize` replaces each maximal run of
characters outside `[A-Za-z0-9]` by exactly one `_` and keeps every other run
(`sanitizeByRuns`, over runs that are non-empty, uniform, alternating and
concatenate to the input); its output holds only characters of `[A-Za-z0-9_]`,
never two adjacent `_`, and the alphanumeric characters of the input in their
order. -/
theorem Sanitize_by_runs (x : String) :
    (Sanitize x).data = sanitizeByRuns x.data ∧
    ((maximalRuns x.data).map Prod.snd).flatten = x.data ∧
    (∀ r ∈ maximalRuns x.data, r.2 ≠ [] ∧ ∀ c ∈ r.2, replaceRegexClass c = r.1) ∧
    List.Chain' (fun r s : Bool × List Char => r.1 ≠ s.1) (maximalRuns x.data) ∧
    (∀ c ∈ (Sanitize x).data, replaceRegexClass c = false ∨ c = '_') ∧
    List.Chain' (fun a b : Char => ¬ (a = '_' ∧ b = '_')) (Sanitize x).data ∧
    (Sanitize x).data.filter (fun c => !replaceRegexClass c) =
      x.data.filter (fun c => !replaceRegexClass c) := by
  have hs : (Sanitize x).data = replaceRuns ['_'] false x.data := rfl
  refine ⟨?_, maximalRuns_join _, maximalRuns_uniform _, maximalRuns_alternate _, ?_, ?_, ?_⟩
  · rw [hs, replaceRuns_by_runs, sanitizeByRuns]
    rcases maximalRuns x.data with _ | ⟨⟨tag, run⟩, rest⟩
    · rfl
    · cases tag <;> simp
  · rw [hs]
    exact replaceRuns_alphabet _ _
  · rw [hs]
    exact (replaceRuns_no_double _).1
  · rw [hs]
    exact replaceRuns_keeps_alnum _ _

/-! ## Correlation records -/

theorem fakeLookup_fakeStore (key : String × String) (v : String)
    (m : List ((String × String) × String)) : fakeLookup key (fakeStore key v m) = some v := by
  simp [fakeStore, fakeLookup]

theorem fakeEnv_storeLaw : StoreLaw fakeEnv := by
  intro bucket key body st _
  show (match fakeLookup (bucket, key) (fakeStore (bucket, key) body st.fakeS3) with
    | some obj => Except.ok obj
    | none => Except.error "NoSuchKey") = Except.ok body
  rw [fakeLookup_fakeStore]

theorem putForwardInfo_ok (lib : Lib) (env : Env σ) (conf : Config) (r : forwardInfo)
    (w : World σ) (h : (putForwardInfo lib env conf r w).1 = none) :
    ∃ data, lib.MarshalForwardInfo r = .ok data ∧
      (env.s3PutObj conf.Bucket.Name
        (lib.PathJoin [conf.Bucket.ForwardMetaPrefix, r.ForwardedID]) data w.ext).1 = none ∧
      putForwardInfo lib env conf r w =
        (none, ⟨(env.s3PutObj conf.Bucket.Name
          (lib.PathJoin [conf.Bucket.ForwardMetaPrefix, r.ForwardedID]) data w.ext).2,
          w.trace ++ [Call.s3PutObj conf.Bucket.Name
            (lib.PathJoin [conf.Bucket.ForwardMetaPrefix, r.ForwardedID]) data]⟩) := by
  unfold putForwardInfo at h ⊢
  cases hm : lib.MarshalForwardInfo r with
  | error e => rw [hm] at h; simp at h
  | ok data =>
    rw [hm] at h
    dsimp only [callPutObj] at h ⊢
    exact ⟨data, rfl, h, by rw [h]⟩

/-- C12: for every record `r`, on a blob store (`StoreLaw`) and with
`encoding/json` round-tripping `r`, after `putForwardInfo r` returns no error,
`getForwardInfo r.ForwardedID` on the resulting store and the same
configuration returns `r` and no error. -/
theorem put_get_forwardInfo (lib : Lib) (env : Env σ) (conf : Config) (r : forwardInfo)
    (w : World σ) (hstore : StoreLaw env) (hjson : JsonRoundTrip lib r)
    (hput : (putForwardInfo lib env conf r w).1 = none) :
    (getForwardInfo lib env conf r.ForwardedID (putForwardInfo lib env conf r w).2).1 =
      (r, none) := by
  obtain ⟨data, hm, hp, heq⟩ := putForwardInfo_ok lib env conf r w hput
  rw [heq]
  unfold getForwardInfo callGetObj
  dsimp only
  rw [hstore _ _ _ _ hp]
  exact hjson data hm

/-- C12, evaluated on the correlation record of `TestLambdaEmail` and the
blob store of `main_test.go`. -/
theorem put_get_forwardInfo_witness :
    StoreLaw fakeEnv ∧
    JsonRoundTrip mimeLib (forwardRecord (testRecord "m1" "PASS" "PASS" "PASS") "id1") ∧
    (putForwardInfo mimeLib fakeEnv (testConf [])
      (forwardRecord (testRecord "m1" "PASS" "PASS" "PASS") "id1") (fakeStart [] [])).1 = none ∧
    (getForwardInfo mimeLib fakeEnv (testConf []) "id1"
      (putForwardInfo mimeLib fakeEnv (testConf [])
        (forwardRecord (testRecord "m1" "PASS" "PASS" "PASS") "id1") (fakeStart [] [])).2).1 =
      ({ OriginalMessageID := "5B762F46B550CE2BAB51989E4F9F1280@mail.gmail.com",
         SESID := "m1", ForwardedID := "id1" }, none) :=
  ⟨fakeEnv_storeLaw,
    fun data h => by cases h; rfl,
    rfl,
    put_get_forwardInfo mimeLib fakeEnv (testConf [])
      (forwardRecord (testRecord "m1" "PASS" "PASS" "PASS") "id1") (fakeStart [] [])
      fakeEnv_storeLaw (fun data h => by cases h; rfl) rfl⟩

/-! ## The forward-to-private workflow -/

theorem forwardLoop_cons (lib : Lib) (conf : Config) (recipient : String)
    (rest : List String) :
    forwardLoop lib conf (recipient :: rest) =
      match proxyLocalPart lib conf recipient with
      | some l =>
        (conf.PrivateAccountMailbox ++ "+" ++ Sanitize l ++ "@" ++ conf.PrivateAccountDomain,
          lib.ToLower recipient)
      | none => forwardLoop lib conf rest := by
  rw [forwardLoop]
  unfold proxyLocalPart
  rcases splitFirstAt (lib.ToLower recipient).data with _ | ⟨p0, p1⟩
  · rfl
  · dsimp only
    by_cases h : String.mk p1 = conf.Domain <;> simp [h]

theorem replyLoop_cons (lib : Lib) (conf : Config) (recipient : String) (rest : List String) :
    replyLoop lib conf (recipient :: rest) =
      match proxyLocalPart lib conf recipient with
      | some _ => lib.ToLower recipient
      | none => replyLoop lib conf rest := by
  rw [replyLoop]
  unfold proxyLocalPart
  rcases splitFirstAt (lib.ToLower recipient).data with _ | ⟨p0, p1⟩
  · rfl
  · dsimp only
    by_cases h : String.mk p1 = conf.Domain <;> simp [h]

theorem forwardLoop_none (lib : Lib) (conf : Config) (rs : List String)
    (h : ∀ q ∈ rs, proxyLocalPart lib conf q = none) : forwardLoop lib conf rs = ("", "") := by
  induction rs with
  | nil => rfl
  | cons r rest ih =>
    rw [forwardLoop_cons, h r (List.mem_cons_self _ _)]
    exact ih (fun q hq => h q (List.mem_cons_of_mem _ hq))

theorem forwardLoop_select (lib : Lib) (conf : Config) (pre : List String) (r : String)
    (post : List String) (l : String) (hpre : ∀ q ∈ pre, proxyLocalPart lib conf q = none)
    (hr : proxyLocalPart lib conf r = some l) :
    forwardLoop lib conf (pre ++ r :: post) =
      (conf.PrivateAccountMailbox ++ "+" ++ Sanitize l ++ "@" ++ conf.PrivateAccountDomain,
        lib.ToLower r) := by
  induction pre with
  | nil => rw [List.nil_append, forwardLoop_cons, hr]
  | cons q rest ih =>
    rw [List.cons_append, forwardLoop_cons, hpre q (List.mem_cons_self _ _)]
    exact ih (fun x hx => hpre x (List.mem_cons_of_mem _ hx))

theorem putForwardInfo_trace (lib : Lib) (env : Env σ) (conf : Config) (r : forwardInfo)
    (w : World σ) :
    (putForwardInfo lib env conf r w).2.trace = w.trace ∨
    ∃ data, lib.MarshalForwardInfo r = .ok data ∧
      (putForwardInfo lib env conf r w).2.trace = w.trace ++
        [Call.s3PutObj conf.Bucket.Name
          (lib.PathJoin [conf.Bucket.ForwardMetaPrefix, r.ForwardedID]) data] := by
  unfold putForwardInfo
  cases hm : lib.MarshalForwardInfo r with
  | error e => exact Or.inl rfl
  | ok data => exact Or.inr ⟨data, rfl, rfl⟩

theorem forwardToGmail_ready (lib : Lib) (env : Env σ) (conf : Config) (record : Record)
    (w : World σ) (raw : String) (w1 : World σ) (body : Envelope) (data : String)
    (h : forwardReady lib env conf record w raw w1 body data) :
    forwardToGmail lib env conf record w =
      match callSendEmail env (forwardInput lib conf record data) w1 with
      | (.error err, w2) => (.err ("send email error: " ++ err), w2)
      | (.ok none, w2) => (.nil, w2)
      | (.ok (some sendID), w2) =>
        match putForwardInfo lib env conf (forwardRecord record sendID) w2 with
        | (some err, w3) => (.err ("save forward info error: " ++ err), w3)
        | (none, w3) => (.nil, w3) := by
  obtain ⟨h1, h2, h3, h4, h5⟩ := h
  unfold forwardToGmail
  simp only [h1, if_false, h2, h3, h4, h5]
  rfl

theorem forwardToGmail_sends (lib : Lib) (env : Env σ) (conf : Config) (record : Record)
    (w : World σ) :
    ∃ delta, (forwardToGmail lib env conf record w).2.trace = w.trace ++ delta ∧
      (delta.filter Call.isSend = [] ∨
        ∃ data, delta.filter Call.isSend = [Call.sendEmail (forwardInput lib conf record data)]) := by
  by_cases h0 : (forwardLoop lib conf record.Recipients).1 = ""
  · refine ⟨[], ?_, Or.inl rfl⟩
    unfold forwardToGmail
    simp [h0]
  · obtain ⟨r1, w1, hg, ht1⟩ : ∃ r1 w1, getMessage lib env conf record.MessageID w = (r1, w1) ∧
        w1.trace = w.trace ++ [Call.s3GetObj conf.Bucket.Name
          (lib.PathJoin [conf.Bucket.MsgPrefix, record.MessageID])] := ⟨_, _, rfl, rfl⟩
    have hnosend : ∀ w2 : World σ, w2 = w1 →
        ∃ delta, w2.trace = w.trace ++ delta ∧
          (delta.filter Call.isSend = [] ∨ ∃ data, delta.filter Call.isSend =
            [Call.sendEmail (forwardInput lib conf record data)]) := by
      intro w2 h2
      subst h2
      exact ⟨_, ht1, Or.inl rfl⟩
    cases r1 with
    | error e =>
      unfold forwardToGmail
      simp only [h0, if_false, hg]
      exact hnosend _ rfl
    | ok raw =>
      cases h3 : lib.ReadEnvelope raw with
      | error e =>
        unfold forwardToGmail
        simp only [h0, if_false, hg, h3]
        exact hnosend _ rfl
      | ok body =>
        cases h4 : lib.Build (forwardBuilder lib record (forwardLoop lib conf record.Recipients).1
            (forwardLoop lib conf record.Recipients).2 body) with
        | some e =>
          unfold forwardToGmail
          simp only [h0, if_false, hg, h3, h4]
          exact hnosend _ rfl
        | none =>
          cases h5 : lib.Encode (forwardBuilder lib record
              (forwardLoop lib conf record.Recipients).1
              (forwardLoop lib conf record.Recipients).2 body) with
          | error e =>
            unfold forwardToGmail
            simp only [h0, if_false, hg, h3, h4, h5]
            exact hnosend _ rfl
          | ok data =>
            rw [forwardToGmail_ready lib env conf record w raw w1 body data ⟨h0, hg, h3, h4, h5⟩]
            obtain ⟨r2, w2, hs, ht2⟩ : ∃ r2 w2,
                callSendEmail env (forwardInput lib conf record data) w1 = (r2, w2) ∧
                w2.trace = w1.trace ++ [Call.sendEmail (forwardInput lib conf record data)] :=
              ⟨_, _, rfl, rfl⟩
            rw [hs]
            have hone : ∀ w3 : World σ, (w3.trace = w2.trace ∨
                ∃ b k d, w3.trace = w2.trace ++ [Call.s3PutObj b k d]) →
                ∃ delta, w3.trace = w.trace ++ delta ∧
                  (delta.filter Call.isSend = [] ∨ ∃ data, delta.filter Call.isSend =
                    [Call.sendEmail (forwardInput lib conf record data)]) := by
              intro w3 h3
              rcases h3 with h3 | ⟨b, k, d, h3⟩
              · exact ⟨[Call.s3GetObj conf.Bucket.Name
                    (lib.PathJoin [conf.Bucket.MsgPrefix, record.MessageID]),
                  Call.sendEmail (forwardInput lib conf record data)],
                  by rw [h3, ht2, ht1]; simp, Or.inr ⟨data, rfl⟩⟩
              · exact ⟨[Call.s3GetObj conf.Bucket.Name
                    (lib.PathJoin [conf.Bucket.MsgPrefix, record.MessageID]),
                  Call.sendEmail (forwardInput lib conf record data), Call.s3PutObj b k d],
                  by rw [h3, ht2, ht1]; simp, Or.inr ⟨data, rfl⟩⟩
            cases r2 with
            | error e => exact hone _ (Or.inl rfl)
            | ok o =>
              cases o with
              | none => exact hone _ (Or.inl rfl)
              | some sendID =>
                dsimp only
                have hp := putForwardInfo_trace lib env conf (forwardRecord record sendID) w2
                rcases hq : putForwardInfo lib env conf (forwardRecord record sendID) w2 with
                  ⟨r3, w3⟩
                rw [hq] at hp
                have hw3 : w3.trace = w2.trace ∨
                    ∃ b k d, w3.trace = w2.trace ++ [Call.s3PutObj b k d] := by
                  rcases hp with hp | ⟨d, _, hp⟩
                  · exact Or.inl hp
                  · exact Or.inr ⟨_, _, d, hp⟩
                cases r3 <;> exact hone _ hw3

/-- C13 as stated fails: the forward of `TestLambdaEmail` on a blob store that
refuses the write. The send succeeds with the id `id1`, `putForwardInfo`
returns the store's error, the workflow fails with it, and the store holds
nothing at `forwardMetaPrefix/id1`. -/
theorem forward_record_not_stored :
    (forwardToGmail testLib brokenPutEnv (testConf []) (testRecord "m1" "PASS" "PASS" "PASS")
        (fakeStart testStore ["id1"])).1 = .err "save forward info error: AccessDenied" ∧
    (forwardToGmail testLib brokenPutEnv (testConf []) (testRecord "m1" "PASS" "PASS" "PASS")
        (fakeStart testStore ["id1"])).2.ext.sentEmails.map (·.2) = ["id1"] ∧
    fakeLookup ("westerly-tapir", "/Voldemort-wearily/id1")
      (forwardToGmail testLib brokenPutEnv (testConf []) (testRecord "m1" "PASS" "PASS" "PASS")
        (fakeStart testStore ["id1"])).2.ext.fakeS3 = none :=
  ⟨by decide, by decide, by decide⟩

/-- C13, amended: for every record whose forward-to-private workflow reaches its
send, when the send succeeds with the id `F` and the write of the correlation
record reports no error on a blob store, the workflow returns `nil`, its last
call is the write, at key `forwardMetaPrefix/F`, of the JSON of the record
with `original_message_id` the `Message-ID` common header without its leading
`<` and trailing `>`, `ses_id` the inbound message id and `forwarded_id` `F`,
and the store afterwards returns that JSON at that key. -/
theorem forward_writes_record (lib : Lib) (env : Env σ) (conf : Config) (record : Record)
    (w : World σ) (raw : String) (w1 : World σ) (body : Envelope) (data F : String)
    (w2 : World σ) (hready : forwardReady lib env conf record w raw w1 body data)
    (hsend : callSendEmail env (forwardInput lib conf record data) w1 = (.ok (some F), w2))
    (hstore : StoreLaw env)
    (hput : (putForwardInfo lib env conf
      { OriginalMessageID := TrimRightGt (TrimLeftLt record.HeaderMessageID),
        SESID := record.MessageID, ForwardedID := F } w2).1 = none) :
    ∃ json,
      lib.MarshalForwardInfo
        { OriginalMessageID := TrimRightGt (TrimLeftLt record.HeaderMessageID),
          SESID := record.MessageID, ForwardedID := F } = .ok json ∧
      (forwardToGmail lib env conf record w).1 = .nil ∧
      (forwardToGmail lib env conf record w).2.trace = w2.trace ++
        [Call.s3PutObj conf.Bucket.Name (lib.PathJoin [conf.Bucket.ForwardMetaPrefix, F]) json] ∧
      (env.s3GetObj conf.Bucket.Name (lib.PathJoin [conf.Bucket.ForwardMetaPrefix, F])
        (forwardToGmail lib env conf record w).2.ext).1 = .ok json := by
  obtain ⟨json, hm, hp, heq⟩ := putForwardInfo_ok lib env conf _ w2 hput
  have hrun : forwardToGmail lib env conf record w =
      (.nil, ⟨(env.s3PutObj conf.Bucket.Name
          (lib.PathJoin [conf.Bucket.ForwardMetaPrefix, F]) json w2.ext).2,
        w2.trace ++ [Call.s3PutObj conf.Bucket.Name
          (lib.PathJoin [conf.Bucket.ForwardMetaPrefix, F]) json]⟩) := by
    rw [forwardToGmail_ready lib env conf record w raw w1 body data hready, hsend]
    dsimp only
    unfold forwardRecord
    rw [heq]
  refine ⟨json, hm, ?_, ?_, ?_⟩
  · rw [hrun]
  · rw [hrun]
  · rw [hrun]
    exact hstore _ _ _ _ hp

/-- C13 amended, evaluated on the record of `TestLambdaEmail` and the blob store
of `main_test.go`. -/
theorem forward_writes_record_witness :
    forwardReady testLib fakeEnv (testConf []) (testRecord "m1" "PASS" "PASS" "PASS")
      (fakeStart testStore ["id1"]) "hello"
      (getMessage testLib fakeEnv (testConf []) "m1" (fakeStart testStore ["id1"])).2
      { Text := "hello", HTML := "", Attachments := [], Inlines := [], OtherParts := [],
        GetHeader := fun _ => "" }
      "From: test@my-ses-email-domain.example.com\nSubject: test subject\n\nhello" ∧
    (forwardToGmail testLib fakeEnv (testConf []) (testRecord "m1" "PASS" "PASS" "PASS")
      (fakeStart testStore ["id1"])).1 = .nil ∧
    (fakeEnv.s3GetObj "westerly-tapir" "/Voldemort-wearily/id1"
      (forwardToGmail testLib fakeEnv (testConf []) (testRecord "m1" "PASS" "PASS" "PASS")
        (fakeStart testStore ["id1"])).2.ext).1 =
      .ok "5B762F46B550CE2BAB51989E4F9F1280@mail.gmail.com\nm1\nid1" :=
  have hready : forwardReady testLib fakeEnv (testConf []) (testRecord "m1" "PASS" "PASS" "PASS")
      (fakeStart testStore ["id1"]) "hello"
      (getMessage testLib fakeEnv (testConf []) "m1" (fakeStart testStore ["id1"])).2
      { Text := "hello", HTML := "", Attachments := [], Inlines := [], OtherParts := [],
        GetHeader := fun _ => "" }
      "From: test@my-ses-email-domain.example.com\nSubject: test subject\n\nhello" :=
    ⟨by decide, rfl, rfl, rfl, rfl⟩
  match forward_writes_record testLib fakeEnv (testConf [])
      (testRecord "m1" "PASS" "PASS" "PASS") (fakeStart testStore ["id1"]) "hello" _ _ _ "id1" _
      hready rfl fakeEnv_storeLaw rfl with
  | ⟨_, hm, hres, _, hget⟩ => ⟨hready, hres, by cases hm; exact hget⟩

theorem forwardToGmail_ready_trace (lib : Lib) (env : Env σ) (conf : Config) (record : Record)
    (w : World σ) (raw : String) (w1 : World σ) (body : Envelope) (data : String)
    (h : forwardReady lib env conf record w raw w1 body data) :
    ∃ delta, (forwardToGmail lib env conf record w).2.trace = w.trace ++ delta ∧
      delta.filter Call.isSend = [Call.sendEmail (forwardInput lib conf record data)] := by
  have ht1 : w1.trace = w.trace ++ [Call.s3GetObj conf.Bucket.Name
      (lib.PathJoin [conf.Bucket.MsgPrefix, record.MessageID])] := by
    have := congrArg (fun r => r.2.trace) h.2.1
    exact this.symm
  rw [forwardToGmail_ready lib env conf record w raw w1 body data h]
  obtain ⟨r2, w2, hs, ht2⟩ : ∃ r2 w2,
      callSendEmail env (forwardInput lib conf record data) w1 = (r2, w2) ∧
      w2.trace = w1.trace ++ [Call.sendEmail (forwardInput lib conf record data)] :=
    ⟨_, _, rfl, rfl⟩
  rw [hs]
  have hone : ∀ w3 : World σ, (w3.trace = w2.trace ∨
      ∃ b k d, w3.trace = w2.trace ++ [Call.s3PutObj b k d]) →
      ∃ delta, w3.trace = w.trace ++ delta ∧
        delta.filter Call.isSend = [Call.sendEmail (forwardInput lib conf record data)] := by
    intro w3 h3
    rcases h3 with h3 | ⟨b, k, d, h3⟩
    · exact ⟨[Call.s3GetObj conf.Bucket.Name
          (lib.PathJoin [conf.Bucket.MsgPrefix, record.MessageID]),
        Call.sendEmail (forwardInput lib conf record data)],
        by rw [h3, ht2, ht1]; simp, rfl⟩
    · exact ⟨[Call.s3GetObj conf.Bucket.Name
          (lib.PathJoin [conf.Bucket.MsgPrefix, record.MessageID]),
        Call.sendEmail (forwardInput lib conf record data), Call.s3PutObj b k d],
        by rw [h3, ht2, ht1]; simp, rfl⟩
  cases r2 with
  | error e => exact hone _ (Or.inl rfl)
  | ok o =>
    cases o with
    | none => exact hone _ (Or.inl rfl)
    | some sendID =>
      dsimp only
      have hp := putForwardInfo_trace lib env conf (forwardRecord record sendID) w2
      rcases hq : putForwardInfo lib env conf (forwardRecord record sendID) w2 with ⟨r3, w3⟩
      rw [hq] at hp
      have hw3 : w3.trace = w2.trace ∨
          ∃ b k d, w3.trace = w2.trace ++ [Call.s3PutObj b k d] := by
        rcases hp with hp | ⟨d, _, hp⟩
        · exact Or.inl hp
        · exact Or.inr ⟨_, _, d, hp⟩
      cases r3 <;> exact hone _ hw3

theorem stepOf_world (r : Outcome × World σ) : (stepOf r).2 = r.2 := by
  rcases r with ⟨o, w⟩
  cases o <;> rfl

/-- C14 as stated fails: the message of `TestLambdaEmail` (external sender,
recipient on the proxy domain, all verdicts `PASS`, raw message stored and
parsing) under a matching route with `forward = false`: `Handler` publishes
the notification and sends nothing. -/
theorem forward_suppressed_by_route :
    fromAddr testLib (testRecord "m1" "PASS" "PASS" "PASS") ≠
      (testConf [testRoute false false false]).PrivateAccountAddress ∧
    passesGates testLib (testRecord "m1" "PASS" "PASS" "PASS") ∧
    proxyLocalPart testLib (testConf [testRoute false false false])
      "test@my-ses-email-domain.example.com" = some "test" ∧
    (Handler testLib fakeEnv (testConf [testRoute false false false])
        [testRecord "m1" "PASS" "PASS" "PASS"] (fakeStart testStore ["id1"])).2.trace =
      [Call.s3GetObjReq "westerly-tapir" "/periphery-corollas/m1",
       Call.snsPublish "id: m1" "hornet-breakwaters"] :=
  ⟨by decide, ⟨rfl, by decide⟩, by decide, by decide⟩

/-- C14, amended: for every record from an external sender (its parsed sender is
neither the private address nor the mailer daemon) with virus verdict `PASS`,
whose rule evaluation ends without a drop or an abort and without a matched
route with `forward = false`, and whose forward-to-private workflow reaches
its send (a recipient is on the proxy domain, the stored raw message is
fetched and parses, the forward builds and encodes to `data`), the record
causes exactly one send; its data is the encoding of a message that carries
`X-Lambdaemail-Id` equal to the inbound message id, `X-Lambdaemail-From` equal
to the `From` header values joined by `,` and `X-Lambdaemail-To` equal to the
`To` header values joined by `,`. -/
theorem forward_one_send (lib : Lib) (env : Env σ) (conf : Config) (record : Record)
    (w w1 : World σ) (raw : String) (w2 : World σ) (body : Envelope) (data : String)
    (hg : passesGates lib record) (hext : fromAddr lib record ≠ conf.PrivateAccountAddress)
    (hr : ruleLoop lib env conf record conf.Routes false w = (.done false, w1))
    (hready : forwardReady lib env conf record w1 raw w2 body data) :
    ∃ delta b, (recordBody lib env conf record w).2.trace = w.trace ++ delta ∧
      delta.filter Call.isSend = [Call.sendEmail (forwardInput lib conf record data)] ∧
      (forwardInput lib conf record data).Data = data ∧
      lib.Encode b = .ok data ∧
      ("X-Lambdaemail-Id", record.MessageID) ∈ b.Headers ∧
      ("X-Lambdaemail-From", String.intercalate "," record.From) ∈ b.Headers ∧
      ("X-Lambdaemail-To", String.intercalate "," record.To) ∈ b.Headers := by
  have hb := recordBody_gates lib env conf record w hg
  rw [hr] at hb
  dsimp only at hb
  have hd : dispatch lib env conf record w1 = forwardToGmail lib env conf record w1 := by
    simp [dispatch, hext]
  rw [hd] at hb
  obtain ⟨d1, e1, p1⟩ := ruleLoop_trace lib env conf record conf.Routes false w
  rw [hr] at e1
  obtain ⟨d2, e2, p2⟩ := forwardToGmail_ready_trace lib env conf record w1 raw w2 body data hready
  have hd1 : d1.filter Call.isSend = [] := by
    rw [List.filter_eq_nil_iff]
    intro c hc
    rw [(notifiesOnly_kind lib conf record conf.Routes c (p1 c hc)).1]
    simp
  refine ⟨d1 ++ d2, forwardBuilder lib record (forwardLoop lib conf record.Recipients).1
    (forwardLoop lib conf record.Recipients).2 body, ?_, ?_, rfl, hready.2.2.2.2, ?_, ?_, ?_⟩
  · rw [hb, stepOf_world, e2, e1, List.append_assoc]
  · rw [List.filter_append, hd1, p2, List.nil_append]
  · simp [forwardBuilder]
  · simp [forwardBuilder]
  · simp [forwardBuilder]

set_option maxRecDepth 20000 in
/-- C14 amended, evaluated on the message and the route of `TestLambdaEmail`
(the route matches and has `forward = true`). -/
theorem forward_one_send_witness :
    passesGates mimeLib (testRecord "m1" "PASS" "PASS" "PASS") ∧
    fromAddr mimeLib (testRecord "m1" "PASS" "PASS" "PASS") ≠
      (testConf [testRoute true false false]).PrivateAccountAddress ∧
    ∃ delta b,
      (recordBody mimeLib fakeEnv (testConf [testRoute true false false])
        (testRecord "m1" "PASS" "PASS" "PASS") (fakeStart replyStore ["id1"])).2.trace =
        (fakeStart replyStore ["id1"]).trace ++ delta ∧
      delta.filter Call.isSend =
        [Call.sendEmail (forwardInput mimeLib (testConf [testRoute true false false])
          (testRecord "m1" "PASS" "PASS" "PASS") testForwardData)] ∧
      (forwardInput mimeLib (testConf [testRoute true false false])
        (testRecord "m1" "PASS" "PASS" "PASS") testForwardData).Data = testForwardData ∧
      mimeLib.Encode b = .ok testForwardData ∧
      ("X-Lambdaemail-Id", "m1") ∈ b.Headers ∧
      ("X-Lambdaemail-From", "Peter Sanford <psanford@example.com>") ∈ b.Headers ∧
      ("X-Lambdaemail-To", "test@my-ses-email-domain.example.com") ∈ b.Headers :=
  ⟨⟨rfl, by decide⟩, by decide,
    forward_one_send mimeLib fakeEnv (testConf [testRoute true false false])
      (testRecord "m1" "PASS" "PASS" "PASS") (fakeStart replyStore ["id1"])
      (ruleLoop mimeLib fakeEnv (testConf [testRoute true false false])
        (testRecord "m1" "PASS" "PASS" "PASS") [testRoute true false false] false
        (fakeStart replyStore ["id1"])).2
      rawOriginal
      (getMessage mimeLib fakeEnv (testConf [testRoute true false false]) "m1"
        (ruleLoop mimeLib fakeEnv (testConf [testRoute true false false])
          (testRecord "m1" "PASS" "PASS" "PASS") [testRoute true false false] false
          (fakeStart replyStore ["id1"])).2).2
      (mimeRead rawOriginal) testForwardData
      ⟨rfl, by decide⟩ (by decide) rfl
      ⟨by decide, rfl, rfl, rfl, rfl⟩⟩

/-! ## The reply relay -/

set_option maxRecDepth 20000 in
/-- C15: `handleReply` on the reply `m2` of the private account to the forwarded
copy `id1` of the external message `m1`. The looked-up correlation record
names the original message (`5B76…@mail.gmail.com`, inbound id `m1`), but the
`In-Reply-To` and `References` headers of the relayed reply are
`<id1@email.amazonses.com>`, the identifier of the forwarded copy taken from
the reply's own `In-Reply-To` header; of the correlation record only `ses_id`
enters the relayed reply. -/
theorem reply_threads_to_forwarded_copy :
    (∀ (lib : Lib) (env : Env FakeState) (conf : Config) (record : Record)
      (proxyAddr inReplyTo : String) (body : Envelope) (info1 info2 : forwardInfo)
      (w : World FakeState), info1.SESID = info2.SESID →
      replySend lib env conf record proxyAddr inReplyTo body info1 w =
        replySend lib env conf record proxyAddr inReplyTo body info2 w) ∧
    (getForwardInfo mimeLib fakeEnv (testConf []) "id1" (fakeStart replyStore ["id2"])).1 =
      ({ OriginalMessageID := "5B762F46B550CE2BAB51989E4F9F1280@mail.gmail.com",
         SESID := "m1", ForwardedID := "id1" }, none) ∧
    (handleReply mimeLib fakeEnv (testConf []) replyRecord
        (fakeStart replyStore ["id2"])).2.trace.filter Call.isSend =
      [Call.sendEmail
        { Destinations := ["psanford@example.com"],
          Data := "From: test@my-ses-email-domain.example.com\nTo: psanford@example.com\n" ++
            "Subject: Re: test subject\nIn-Reply-To: <id1@email.amazonses.com>\n" ++
            "References: <id1@email.amazonses.com>\n\nthanks",
          Source := "test@my-ses-email-domain.example.com" }] := by
  refine ⟨fun lib env conf record proxyAddr inReplyTo body info1 info2 w h => ?_, rfl,
    by decide⟩
  unfold replySend
  rw [h]

/-- C16: for every record whose stored message is fetched and parses, and either
has no `In-Reply-To` header (empty after trimming angle brackets) or has one
that, with the suffix `@email.amazonses.com` stripped, names a key that the
store does not hold under the forward-meta prefix, `handleReply` returns an
error and performs no send. -/
theorem handleReply_unthreadable (lib : Lib) (env : Env σ) (conf : Config) (record : Record)
    (w : World σ) (raw : String) (w1 : World σ) (body : Envelope)
    (hget : getMessage lib env conf record.MessageID w = (.ok raw, w1))
    (hparse : lib.ReadEnvelope raw = .ok body)
    (h : trimBrackets (body.GetHeader "In-Reply-To") = "" ∨
      ∃ e, (env.s3GetObj conf.Bucket.Name
        (lib.PathJoin [conf.Bucket.ForwardMetaPrefix,
          TrimSuffix (trimBrackets (body.GetHeader "In-Reply-To")) "@email.amazonses.com"])
        w1.ext).1 = .error e) :
    (∃ msg, (handleReply lib env conf record w).1 = .err msg) ∧
    TraceExt (fun c => c.isSend = false) w (handleReply lib env conf record w).2 := by
  have ht1 : TraceExt (fun c => c.isSend = false) w w1 := by
    have := congrArg (fun r => r.2.trace) hget
    exact TraceExt.single _ this.symm rfl
  unfold handleReply
  dsimp only
  by_cases h0 : replyLoop lib conf record.Recipients = ""
  · rw [if_pos h0]
    exact ⟨⟨_, rfl⟩, TraceExt.refl _ _⟩
  · rw [if_neg h0, hget]
    dsimp only
    rw [hparse]
    dsimp only
    by_cases h1 : trimBrackets (body.GetHeader "In-Reply-To") = ""
    · rw [if_pos h1]
      exact ⟨⟨_, rfl⟩, ht1⟩
    · rw [if_neg h1]
      rcases h with h | ⟨e, he⟩
      · exact absurd h h1
      · unfold getForwardInfo callGetObj
        rw [he]
        exact ⟨⟨_, rfl⟩, ht1.trans (TraceExt.single _ rfl rfl)⟩

/-- C16, evaluated on the reply `m2` when the store holds no correlation record
for the forwarded copy `id1`. -/
theorem handleReply_unthreadable_witness :
    (fakeEnv.s3GetObj "westerly-tapir" "/Voldemort-wearily/id1"
      (getMessage mimeLib fakeEnv (testConf []) "m2"
        (fakeStart [(("westerly-tapir", "/periphery-corollas/m2"), rawReply)] ["id2"])).2.ext).1 =
      .error "NoSuchKey" ∧
    (∃ msg, (handleReply mimeLib fakeEnv (testConf []) replyRecord
      (fakeStart [(("westerly-tapir", "/periphery-corollas/m2"), rawReply)] ["id2"])).1 =
        .err msg) ∧
    TraceExt (fun c => c.isSend = false)
      (fakeStart [(("westerly-tapir", "/periphery-corollas/m2"), rawReply)] ["id2"])
      (handleReply mimeLib fakeEnv (testConf []) replyRecord
        (fakeStart [(("westerly-tapir", "/periphery-corollas/m2"), rawReply)] ["id2"])).2 :=
  ⟨rfl,
    handleReply_unthreadable mimeLib fakeEnv (testConf []) replyRecord
      (fakeStart [(("westerly-tapir", "/periphery-corollas/m2"), rawReply)] ["id2"]) rawReply
      _ (mimeRead rawReply) rfl rfl (Or.inr ⟨"NoSuchKey", rfl⟩)⟩

/-! ## The destination of the forward -/

theorem forwardInput_select (lib : Lib) (conf : Config) (record : Record) (data : String)
    (pre : List String) (r : String) (post : List String) (l : String)
    (hrec : record.Recipients = pre ++ r :: post)
    (hpre : ∀ q ∈ pre, proxyLocalPart lib conf q = none)
    (hr : proxyLocalPart lib conf r = some l) :
    forwardInput lib conf record data =
      { Destinations := [TrimSpace (conf.PrivateAccountMailbox ++ "+" ++ Sanitize l ++ "@" ++
          conf.PrivateAccountDomain)],
        Data := data, Source := lib.ToLower r } := by
  unfold forwardInput
  rw [hrec, forwardLoop_select lib conf pre r post l hpre hr]
  rfl

/-- C17 as stated fails: with a space before the configured private address,
the private mailbox is ` foo` and the claimed destination is
` foo+test@gmail.example.com`, but `strList` trims the destination and the
forward is sent to `foo+test@gmail.example.com`. -/
theorem forward_destination_is_trimmed :
    spaceConf.PrivateAccountMailbox ++ "+" ++ Sanitize "test" ++ "@" ++
      spaceConf.PrivateAccountDomain = " foo+test@gmail.example.com" ∧
    proxyLocalPart testLib spaceConf "test@my-ses-email-domain.example.com" = some "test" ∧
    (forwardToGmail testLib fakeEnv spaceConf (testRecord "m1" "PASS" "PASS" "PASS")
        (fakeStart testStore ["id1"])).2.trace.filter Call.isSend =
      [Call.sendEmail
        { Destinations := ["foo+test@gmail.example.com"],
          Data := "From: test@my-ses-email-domain.example.com\nSubject: test subject\n\nhello",
          Source := "test@my-ses-email-domain.example.com" }] :=
  ⟨by decide, by decide, by decide⟩

/-- C17, amended: when `r` is the first receipt recipient that, lower-cased, is
on the proxy domain, with local part `l`, `forwardToGmail` performs at most
one send, and exactly one when the workflow reaches its send; that send has
exactly one destination, the space-trimmed
`privateMailbox + "+" + Sanitize(l) + "@" + privateDomain`, and its `Source` is
the lower-cased `r`. When no recipient is on the proxy domain it returns an
error and calls nothing. -/
theorem forward_destination (lib : Lib) (env : Env σ) (conf : Config) (record : Record)
    (w : World σ) :
    (∀ pre r post l, record.Recipients = pre ++ r :: post →
      (∀ q ∈ pre, proxyLocalPart lib conf q = none) → proxyLocalPart lib conf r = some l →
      (∃ delta, (forwardToGmail lib env conf record w).2.trace = w.trace ++ delta ∧
        (delta.filter Call.isSend = [] ∨ ∃ data, delta.filter Call.isSend =
          [Call.sendEmail
            { Destinations := [TrimSpace (conf.PrivateAccountMailbox ++ "+" ++ Sanitize l ++
                "@" ++ conf.PrivateAccountDomain)],
              Data := data, Source := lib.ToLower r }])) ∧
      (∀ raw w1 body data, forwardReady lib env conf record w raw w1 body data →
        ∃ delta, (forwardToGmail lib env conf record w).2.trace = w.trace ++ delta ∧
          delta.filter Call.isSend =
            [Call.sendEmail
              { Destinations := [TrimSpace (conf.PrivateAccountMailbox ++ "+" ++ Sanitize l ++
                  "@" ++ conf.PrivateAccountDomain)],
                Data := data, Source := lib.ToLower r }])) ∧
    ((∀ q ∈ record.Recipients, proxyLocalPart lib conf q = none) →
      ∃ msg, forwardToGmail lib env conf record w = (.err msg, w)) := by
  refine ⟨fun pre r post l hrec hpre hr => ⟨?_, fun raw w1 body data hready => ?_⟩,
    fun hnone => ?_⟩
  · obtain ⟨delta, ht, hs⟩ := forwardToGmail_sends lib env conf record w
    refine ⟨delta, ht, ?_⟩
    rcases hs with hs | ⟨data, hs⟩
    · exact Or.inl hs
    · exact Or.inr ⟨data, by
        rw [hs, forwardInput_select lib conf record data pre r post l hrec hpre hr]⟩
  · obtain ⟨delta, ht, hs⟩ :=
      forwardToGmail_ready_trace lib env conf record w raw w1 body data hready
    exact ⟨delta, ht, by
      rw [hs, forwardInput_select lib conf record data pre r post l hrec hpre hr]⟩
  · unfold forwardToGmail
    simp [forwardLoop_none lib conf record.Recipients hnone]

/-- C17 amended, evaluated on the record of `TestLambdaEmail` with a second
recipient outside the proxy domain placed first. -/
theorem forward_destination_witness :
    proxyLocalPart testLib (testConf []) "Other@Example.org" = none ∧
    proxyLocalPart testLib (testConf []) "Test@My-SES-Email-Domain.example.com" = some "test" ∧
    ∃ delta, (forwardToGmail testLib fakeEnv (testConf [])
        { testRecord "m1" "PASS" "PASS" "PASS" with
          Recipients := ["Other@Example.org", "Test@My-SES-Email-Domain.example.com"] }
        (fakeStart testStore ["id1"])).2.trace = (fakeStart testStore ["id1"]).trace ++ delta ∧
      delta.filter Call.isSend =
        [Call.sendEmail
          { Destinations := [TrimSpace ((testConf []).PrivateAccountMailbox ++ "+" ++
              Sanitize "test" ++ "@" ++ (testConf []).PrivateAccountDomain)],
            Data := "From: test@my-ses-email-domain.example.com\nSubject: test subject\n\nhello",
            Source := testLib.ToLower "Test@My-SES-Email-Domain.example.com" }] :=
  ⟨by decide, by decide,
    ((forward_destination testLib fakeEnv (testConf [])
      { testRecord "m1" "PASS" "PASS" "PASS" with
        Recipients := ["Other@Example.org", "Test@My-SES-Email-Domain.example.com"] }
      (fakeStart testStore ["id1"])).1 ["Other@Example.org"]
        "Test@My-SES-Email-Domain.example.com" [] "test" rfl
        (fun q hq => by rw [List.mem_singleton.mp hq]; decide) (by decide)).2
      "hello" _ _ _ ⟨by decide, rfl, rfl, rfl, rfl⟩⟩

/-! ## Splitting addresses at `@` -/

theorem splitFirstAt_first (p0 p1 : List Char) (h : '@' ∉ p0) :
    splitFirstAt (p0 ++ '@' :: p1) = some (p0, p1) := by
  induction p0 with
  | nil => simp [splitFirstAt]
  | cons c cs ih =>
    have hc : c ≠ '@' := fun e => h (by rw [e]; exact List.mem_cons_self _ _)
    have hcs : '@' ∉ cs := fun e => h (List.mem_cons_of_mem _ e)
    simp [splitFirstAt, hc, ih hcs]

theorem splitAllAt_no_at (l : List Char) (h : '@' ∉ l) : splitAllAt l = [l] := by
  induction l with
  | nil => rfl
  | cons c cs ih =>
    have hc : c ≠ '@' := fun e => h (by rw [e]; exact List.mem_cons_self _ _)
    have hcs : '@' ∉ cs := fun e => h (List.mem_cons_of_mem _ e)
    simp [splitAllAt, hc, ih hcs]

/-- C18 as stated fails: for the recipient `a@b@my-ses-email-domain.example.com`
the text after the last `@` is the proxy domain, but the code splits at the
first `@` (local part `a`, domain `b@my-ses-email-domain.example.com`), so
neither `forwardToGmail` nor `handleReply` finds a recipient on the proxy
domain. -/
theorem recipient_split_at_first_at :
    splitFirstAt (testLib.ToLower "a@b@my-ses-email-domain.example.com").data =
      some ("a".data, "b@my-ses-email-domain.example.com".data) ∧
    (testConf []).Domain = "my-ses-email-domain.example.com" ∧
    forwardLoop testLib (testConf []) ["a@b@my-ses-email-domain.example.com"] = ("", "") ∧
    replyLoop testLib (testConf []) ["a@b@my-ses-email-domain.example.com"] = "" :=
  ⟨by decide, rfl, by decide, by decide⟩

/-- C18, amended: recipient addresses are split at the first `@`. For every
recipient whose lower-cased text is `p0 ++ "@" ++ p1` with no `@` in `p0`, the
domain that `forwardToGmail` and `handleReply` compare with the proxy domain
is `p1`, the text after the first `@`, and the local part that
`forwardToGmail` sanitises is `p0`, the text before it. -/
theorem recipient_split (lib : Lib) (conf : Config) (recipient : String) (rest : List String)
    (p0 p1 : List Char) (hsplit : (lib.ToLower recipient).data = p0 ++ '@' :: p1)
    (hfirst : '@' ∉ p0) :
    forwardLoop lib conf (recipient :: rest) =
      (if String.mk p1 = conf.Domain then
        (conf.PrivateAccountMailbox ++ "+" ++ Sanitize (String.mk p0) ++ "@" ++
          conf.PrivateAccountDomain, lib.ToLower recipient)
       else forwardLoop lib conf rest) ∧
    replyLoop lib conf (recipient :: rest) =
      (if String.mk p1 = conf.Domain then lib.ToLower recipient
       else replyLoop lib conf rest) := by
  have hs := splitFirstAt_first p0 p1 hfirst
  rw [← hsplit] at hs
  constructor
  · rw [forwardLoop, hs]
  · rw [replyLoop, hs]

/-- C18 amended, evaluated on a recipient with two `@`. -/
theorem recipient_split_witness :
    (testLib.ToLower "A@b@my-ses-email-domain.example.com").data =
      "a".data ++ '@' :: "b@my-ses-email-domain.example.com".data ∧
    '@' ∉ "a".data ∧
    forwardLoop testLib (testConf []) ["A@b@my-ses-email-domain.example.com"] =
      (if String.mk "b@my-ses-email-domain.example.com".data = (testConf []).Domain then
        ((testConf []).PrivateAccountMailbox ++ "+" ++ Sanitize (String.mk "a".data) ++ "@" ++
          (testConf []).PrivateAccountDomain,
          testLib.ToLower "A@b@my-ses-email-domain.example.com")
       else forwardLoop testLib (testConf []) []) :=
  ⟨by decide, by decide,
    (recipient_split testLib (testConf []) "A@b@my-ses-email-domain.example.com" []
      "a".data "b@my-ses-email-domain.example.com".data (by decide) (by decide)).1⟩

/-! ## The private address without `@` -/

/-- C19 as stated fails: for the private address `foo`, without `@`, both
methods return `foo`, and `Config.validate` reports no error. -/
theorem private_address_without_at :
    '@' ∉ noAtConf.PrivateAccountAddress.data ∧
    noAtConf.PrivateAccountDomain = "foo" ∧
    noAtConf.PrivateAccountMailbox = "foo" ∧
    noAtConf.validate = none :=
  ⟨by decide, by decide, by decide, by decide⟩

/-- C19, amended: for every configured private address that contains no `@`,
`Config.PrivateAccountDomain` and `Config.PrivateAccountMailbox` both return
the whole address; and `Config.validate` accepts a configuration exactly when
its nine required fields are non-empty, whether or not the private address
holds an `@`. -/
theorem private_address_no_at (c : Config) :
    ('@' ∉ c.PrivateAccountAddress.data →
      c.PrivateAccountDomain = c.PrivateAccountAddress ∧
      c.PrivateAccountMailbox = c.PrivateAccountAddress) ∧
    (c.validate = none ↔
      c.Domain ≠ "" ∧ c.PrivateAccountAddress ≠ "" ∧ c.OutboundAddress ≠ "" ∧
      c.SSMPrefix ≠ "" ∧ c.AwsRegion ≠ "" ∧ c.Bucket.Name ≠ "" ∧ c.Bucket.MsgPrefix ≠ "" ∧
      c.Bucket.ForwardMetaPrefix ≠ "" ∧ c.Bucket.OutboxPrefix ≠ "") := by
  constructor
  · intro h
    unfold Config.PrivateAccountDomain Config.PrivateAccountMailbox
    rw [splitAllAt_no_at _ h]
    exact ⟨rfl, rfl⟩
  · unfold Config.validate
    split_ifs <;> simp_all

/-- C19 amended, evaluated on the private address `foo`. -/
theorem private_address_no_at_witness :
    '@' ∉ noAtConf.PrivateAccountAddress.data ∧
    noAtConf.PrivateAccountDomain = noAtConf.PrivateAccountAddress ∧
    noAtConf.PrivateAccountMailbox = noAtConf.PrivateAccountAddress :=
  ⟨by decide, (private_address_no_at noAtConf).1 (by decide)⟩

/-! ## Routes whose source pattern does not compile -/

theorem Match_bad_pattern (lib : Lib) (conf : Config) (bad : Route) (e : String)
    (hw : wrapped bad.Src = true)
    (hc : lib.Compile (TrimSuffix (TrimPrefix bad.Src "/") "/") = .error e)
    (toHeader : List String) (frm : String) :
    bad.Match lib conf toHeader frm =
      (false, some ("src regexp compile err for " ++ bad.Src ++ ": " ++ e)) := by
  have hp : bad.Src ≠ privateAddrPlaceholder := by
    intro h
    rw [h] at hw
    revert hw
    decide
  unfold wrapped at hw
  simp only [Route.Match, if_neg hp, hw, if_true, hc]

theorem ruleLoop_routes_frame (lib : Lib) (env : Env σ) (conf : Config) (other : List Route)
    (record : Record) (routes : List Route) (skip : Bool) (w : World σ) :
    ruleLoop lib env { conf with Routes := other } record routes skip w =
      ruleLoop lib env conf record routes skip w := by
  induction routes generalizing skip w with
  | nil => rfl
  | cons rule rest ih =>
    by_cases hm : rule.matches lib conf record
    · have hm2 : rule.matches lib { conf with Routes := other } record := hm
      rw [ruleLoop_cons_match lib env conf record rule rest skip w hm,
        ruleLoop_cons_match lib env _ record rule rest skip w hm2]
      have hpub : publishSNS lib env { conf with Routes := other } rule.SNS record w =
          publishSNS lib env conf rule.SNS record w := rfl
      rw [hpub]
      by_cases hd : rule.Drop = true
      · simp [hd]
      · simp only [hd, if_false]
        by_cases hs : (decide ((suspect record).length > 0) && !rule.AllowSuspectMessages) = true
        · simp [hs]
        · simp only [hs, if_false]
          rcases publishSNS lib env conf rule.SNS record w with ⟨o, w1⟩
          cases o with
          | nil => exact ih _ _
          | err e => rfl
          | panic => rfl
    · have hm2 : ¬ rule.matches lib { conf with Routes := other } record := hm
      rw [ruleLoop_cons_skip lib env conf record rule rest skip w hm,
        ruleLoop_cons_skip lib env _ record rule rest skip w hm2]
      exact ih _ _

theorem ruleLoop_skip_route (lib : Lib) (env : Env σ) (conf : Config) (record : Record)
    (pre : List Route) (bad : Route) (post : List Route) (skip : Bool) (w : World σ)
    (h : ¬ bad.matches lib conf record) :
    ruleLoop lib env conf record (pre ++ bad :: post) skip w =
      ruleLoop lib env conf record (pre ++ post) skip w := by
  rw [ruleLoop_append, ruleLoop_append lib env conf record pre post]
  rcases ruleLoop lib env conf record pre skip w with ⟨r, w1⟩
  cases r with
  | ret result => rfl
  | done sk => exact ruleLoop_cons_skip lib env conf record bad post sk w1 h

theorem forwardLoop_routes_frame (lib : Lib) (conf : Config) (other : List Route)
    (rs : List String) :
    forwardLoop lib { conf with Routes := other } rs = forwardLoop lib conf rs := by
  induction rs with
  | nil => rfl
  | cons r rest ih =>
    rw [forwardLoop, forwardLoop, ih]
    rfl

theorem replyLoop_routes_frame (lib : Lib) (conf : Config) (other : List Route)
    (rs : List String) :
    replyLoop lib { conf with Routes := other } rs = replyLoop lib conf rs := by
  induction rs with
  | nil => rfl
  | cons r rest ih =>
    rw [replyLoop, replyLoop, ih]

theorem dispatch_routes_frame (lib : Lib) (env : Env σ) (conf : Config) (other : List Route)
    (record : Record) (w : World σ) :
    dispatch lib env { conf with Routes := other } record w = dispatch lib env conf record w := by
  have hf : forwardToGmail lib env { conf with Routes := other } record w =
      forwardToGmail lib env conf record w := by
    unfold forwardToGmail
    rw [forwardLoop_routes_frame]
    rfl
  have hr : handleReply lib env { conf with Routes := other } record w =
      handleReply lib env conf record w := by
    unfold handleReply
    rw [replyLoop_routes_frame]
    rfl
  have ho : handleOutbound lib env { conf with Routes := other } record w =
      handleOutbound lib env conf record w := rfl
  unfold dispatch
  rw [hf, hr, ho]
  rfl

theorem recordBody_skip_route (lib : Lib) (env : Env σ) (conf : Config) (record : Record)
    (pre : List Route) (bad : Route) (post : List Route) (w : World σ)
    (hroutes : conf.Routes = pre ++ bad :: post) (h : ¬ bad.matches lib conf record) :
    recordBody lib env conf record w =
      recordBody lib env { conf with Routes := pre ++ post } record w := by
  have hloop : ruleLoop lib env { conf with Routes := pre ++ post } record (pre ++ post) false w =
      ruleLoop lib env conf record conf.Routes false w := by
    rw [ruleLoop_routes_frame, hroutes, ruleLoop_skip_route lib env conf record pre bad post _ _ h]
  have hdisp : ∀ w1, dispatch lib env { conf with Routes := pre ++ post } record w1 =
      dispatch lib env conf record w1 :=
    fun w1 => dispatch_routes_frame lib env conf (pre ++ post) record w1
  have hmail : ∀ msg, sendErrorEmail lib env { conf with Routes := pre ++ post } msg record w =
      sendErrorEmail lib env conf msg record w := fun _ => rfl
  unfold recordBody
  simp only [hloop, hdisp, hmail]

/-- C20: a route whose `src` is wrapped in `/…/` and whose unwrapped pattern does
not compile makes `Route.Match` return `(false, error)` on every message, and
`Handler` returns the same result and leaves the same world (every call made,
in order, and the state of the collaborators) as with that route removed from
the configured list. -/
theorem bad_pattern_route_skipped (lib : Lib) (env : Env σ) (conf : Config) (bad : Route)
    (e : String) (pre post : List Route) (hw : wrapped bad.Src = true)
    (hc : lib.Compile (TrimSuffix (TrimPrefix bad.Src "/") "/") = .error e)
    (hroutes : conf.Routes = pre ++ bad :: post) :
    (∀ toHeader frm, ∃ msg, bad.Match lib conf toHeader frm = (false, some msg)) ∧
    ∀ sse w, Handler lib env conf sse w =
      Handler lib env { conf with Routes := pre ++ post } sse w := by
  refine ⟨fun toHeader frm => ⟨_, Match_bad_pattern lib conf bad e hw hc toHeader frm⟩,
    fun sse w => ?_⟩
  have hbody : ∀ record w1, recordBody lib env conf record w1 =
      recordBody lib env { conf with Routes := pre ++ post } record w1 := by
    intro record w1
    refine recordBody_skip_route lib env conf record pre bad post w1 hroutes ?_
    unfold Route.matches
    rw [Match_bad_pattern lib conf bad e hw hc]
    simp
  unfold Handler
  generalize ([] : List String) = errors
  induction sse generalizing errors w with
  | nil => rfl
  | cons record rest ih =>
    rw [recordLoop, recordLoop, hbody]
    rcases recordBody lib env { conf with Routes := pre ++ post } record w with ⟨st, w1⟩
    cases st with
    | ret result => rfl
    | next a =>
      cases a with
      | none => exact ih _ _
      | some err => exact ih _ _

/-- C20, evaluated on the route of `TestLambdaEmail` preceded by a route whose
pattern `(` does not compile. -/
theorem bad_pattern_route_skipped_witness :
    wrapped "/(/" = true ∧
    (Handler testLib fakeEnv
        (testConf [{ testRoute true false false with Src := "/(/" }, testRoute true false false])
        [testRecord "m1" "PASS" "PASS" "PASS"] (fakeStart testStore ["id1"])).2.trace =
      testForwardCalls :=
  ⟨by decide,
    (congrArg (fun r => r.2.trace)
      ((bad_pattern_route_skipped testLib fakeEnv
        (testConf [{ testRoute true false false with Src := "/(/" }, testRoute true false false])
        { testRoute true false false with Src := "/(/" } "error parsing regexp: (" []
        [testRoute true false false] (by decide) rfl rfl).2
        [testRecord "m1" "PASS" "PASS" "PASS"] (fakeStart testStore ["id1"]))).trans
      (by decide)⟩

/-! ## DKIM and SPF verdicts without a matching route -/

theorem dispatch_verdict_frame (lib : Lib) (env : Env σ) (conf : Config) (record : Record)
    (d s : String) (w : World σ) :
    dispatch lib env conf { record with DKIMVerdict := d, SPFVerdict := s } w =
      dispatch lib env conf record w := by
  have hf : forwardToGmail lib env conf { record with DKIMVerdict := d, SPFVerdict := s } w =
      forwardToGmail lib env conf record w := rfl
  have hr : handleReply lib env conf { record with DKIMVerdict := d, SPFVerdict := s } w =
      handleReply lib env conf record w := rfl
  have ho : handleOutbound lib env conf { record with DKIMVerdict := d, SPFVerdict := s } w =
      handleOutbound lib env conf record w := rfl
  unfold dispatch
  rw [hf, hr, ho]
  rfl

theorem recordBody_no_match (lib : Lib) (env : Env σ) (conf : Config) (record : Record)
    (w : World σ) (hg : passesGates lib record)
    (hno : ∀ q ∈ conf.Routes, ¬ q.matches lib conf record) :
    recordBody lib env conf record w = stepOf (dispatch lib env conf record w) := by
  rw [recordBody_gates lib env conf record w hg,
    ruleLoop_no_match lib env conf record conf.Routes false w hno]

theorem recordBody_daemon (lib : Lib) (env : Env σ) (conf : Config) (record : Record)
    (w : World σ) (hv : record.VirusVerdict = "PASS")
    (hd : lib.ToLower (fromAddr lib record) = awsMailerDaemon) :
    recordBody lib env conf record w =
      (.ret .nil, (sendErrorEmail lib env conf
        "aws mailer-daemon notification, not forwarding" record w).2) := by
  have h : virus record = false := by simp [virus, hv]
  simp [recordBody, h, hd]

set_option maxRecDepth 20000 in
/-- C21 as stated fails: two bounce notifications of the mailer daemon that
differ only in their DKIM verdict, under a configuration without routes. Both
are answered with the operator notification, but its body embeds the record
and with it the verdict, so the two sends differ. -/
theorem daemon_notification_shows_verdict :
    (Handler verdictLib fakeEnv (testConf []) [daemonRecord "m1"]
        (fakeStart testStore ["id1"])).2.trace =
      [Call.sendEmail
        { Destinations := ["foo@gmail.example.com"],
          Data := "From: error@my-ses-email-domain.example.com\nSubject: Lambda Email Error" ++
            "\n\naws mailer-daemon notification, not forwarding\nid: m1\n\n" ++
            "messageId: m1 dkimVerdict: PASS spfVerdict: PASS",
          Source := "error@my-ses-email-domain.example.com" }] ∧
    (Handler verdictLib fakeEnv (testConf []) [{ daemonRecord "m1" with DKIMVerdict := "FAIL" }]
        (fakeStart testStore ["id1"])).2.trace =
      [Call.sendEmail
        { Destinations := ["foo@gmail.example.com"],
          Data := "From: error@my-ses-email-domain.example.com\nSubject: Lambda Email Error" ++
            "\n\naws mailer-daemon notification, not forwarding\nid: m1\n\n" ++
            "messageId: m1 dkimVerdict: FAIL spfVerdict: PASS",
          Source := "error@my-ses-email-domain.example.com" }] :=
  ⟨by decide, by decide⟩

/-- C21, amended: for a record with virus verdict `PASS` that matches no
configured route, and the record that differs from it only in the DKIM and SPF
verdict statuses `d` and `s`: when the sender is not the mailer daemon, the
loop body of `Handler` is the same for both (same result, same calls in the
same order, same state of the collaborators), namely the one workflow that
`dispatch` selects from the sender and the `To` addresses, and `Handler` runs
alike from either record on; when the sender is the mailer daemon, both
records end `Handler` with `nil` after the operator notification, whose only
possible call is one send from `error@<domain>` to the private mailbox
address. -/
theorem verdicts_do_not_steer (lib : Lib) (env : Env σ) (conf : Config) (record : Record)
    (d s : String) (w : World σ) (hv : record.VirusVerdict = "PASS")
    (hno : ∀ q ∈ conf.Routes, ¬ q.matches lib conf record) :
    (lib.ToLower (fromAddr lib record) ≠ awsMailerDaemon →
      recordBody lib env conf { record with DKIMVerdict := d, SPFVerdict := s } w =
        recordBody lib env conf record w ∧
      recordBody lib env conf record w = stepOf (dispatch lib env conf record w) ∧
      ∀ rest errors,
        recordLoop lib env conf ({ record with DKIMVerdict := d, SPFVerdict := s } :: rest)
          errors w = recordLoop lib env conf (record :: rest) errors w) ∧
    (lib.ToLower (fromAddr lib record) = awsMailerDaemon →
      recordBody lib env conf record w =
        (.ret .nil, (sendErrorEmail lib env conf
          "aws mailer-daemon notification, not forwarding" record w).2) ∧
      recordBody lib env conf { record with DKIMVerdict := d, SPFVerdict := s } w =
        (.ret .nil, (sendErrorEmail lib env conf
          "aws mailer-daemon notification, not forwarding"
          { record with DKIMVerdict := d, SPFVerdict := s } w).2) ∧
      ∀ r : Record,
        (sendErrorEmail lib env conf "aws mailer-daemon notification, not forwarding" r w).2 = w ∨
        ∃ data, (sendErrorEmail lib env conf
            "aws mailer-daemon notification, not forwarding" r w).2.trace = w.trace ++
          [Call.sendEmail
            { Destinations := [TrimSpace (conf.PrivateAccountMailbox ++ "@" ++
                conf.PrivateAccountDomain)],
              Data := data, Source := "error@" ++ conf.Domain }]) := by
  refine ⟨fun hd => ?_, fun hd => ?_⟩
  · have hb1 := recordBody_no_match lib env conf record w ⟨hv, hd⟩ hno
    have hb2 := recordBody_no_match lib env conf
      { record with DKIMVerdict := d, SPFVerdict := s } w ⟨hv, hd⟩ hno
    have heq : recordBody lib env conf { record with DKIMVerdict := d, SPFVerdict := s } w =
        recordBody lib env conf record w := by
      rw [hb1, hb2, dispatch_verdict_frame]
    refine ⟨heq, hb1, fun rest errors => ?_⟩
    rw [recordLoop, recordLoop, heq]
  · refine ⟨recordBody_daemon lib env conf record w hv hd,
      recordBody_daemon lib env conf { record with DKIMVerdict := d, SPFVerdict := s } w hv hd,
      fun r => ?_⟩
    rcases sendErrorEmail_trace lib env conf
      "aws mailer-daemon notification, not forwarding" r w with ⟨_, h⟩ | ⟨data, _, _, h⟩
    · exact Or.inl h
    · exact Or.inr ⟨data, h⟩

/-- C21 amended, evaluated on the reply `m2` of the private account with its DKIM
and SPF verdicts failed: it is relayed like the reply with both verdicts
`PASS`. -/
theorem verdicts_do_not_steer_witness :
    replyRecord.VirusVerdict = "PASS" ∧
    mimeLib.ToLower (fromAddr mimeLib replyRecord) ≠ awsMailerDaemon ∧
    recordBody mimeLib fakeEnv (testConf [])
        { replyRecord with DKIMVerdict := "FAIL", SPFVerdict := "FAIL" }
        (fakeStart replyStore ["id2"]) =
      recordBody mimeLib fakeEnv (testConf []) replyRecord (fakeStart replyStore ["id2"]) ∧
    recordBody mimeLib fakeEnv (testConf []) replyRecord (fakeStart replyStore ["id2"]) =
      stepOf (handleReply mimeLib fakeEnv (testConf []) replyRecord
        (fakeStart replyStore ["id2"])) :=
  ⟨rfl, by decide,
    ((verdicts_do_not_steer mimeLib fakeEnv (testConf []) replyRecord "FAIL" "FAIL"
      (fakeStart replyStore ["id2"]) rfl
      (fun q hq => absurd hq (List.not_mem_nil q))).1 (by decide)).1,
    ((verdicts_do_not_steer mimeLib fakeEnv (testConf []) replyRecord "FAIL" "FAIL"
      (fakeStart replyStore ["id2"]) rfl
      (fun q hq => absurd hq (List.not_mem_nil q))).1 (by decide)).2.1⟩

/-! ## The virus gate -/

/-- C6 as stated fails: with the private address `a@b@c` the operator
notification for a virus record goes to `a@c` (the text before the first `@`
and the text after the last), which is not the private address; when the MIME
library cannot build the notification, no send is made at all; and of two
virus records in one batch only the first is answered. -/
theorem virus_notification_not_as_claimed :
    (twoAtConf.PrivateAccountAddress = "a@b@c" ∧
      (Handler testLib fakeEnv twoAtConf [testRecord "m1" "PASS" "PASS" "FAIL"]
          (fakeStart testStore ["id1"])).2.trace =
        [Call.sendEmail
          { Destinations := ["a@c"],
            Data := "From: error@my-ses-email-domain.example.com\nSubject: Lambda Email Error" ++
              "\n\nVirus email, not processing\nid: m1\n\nmessageId: m1",
            Source := "error@my-ses-email-domain.example.com" }]) ∧
    (Handler failBuildLib fakeEnv (testConf []) [testRecord "m1" "PASS" "PASS" "FAIL"]
        (fakeStart testStore ["id1"])).2.trace = [] ∧
    (Handler testLib fakeEnv (testConf [])
        [testRecord "m1" "PASS" "PASS" "FAIL", testRecord "m2" "PASS" "PASS" "FAIL"]
        (fakeStart testStore ["id1"])).2.trace =
      [Call.sendEmail
        { Destinations := ["foo@gmail.example.com"],
          Data := "From: error@my-ses-email-domain.example.com\nSubject: Lambda Email Error" ++
            "\n\nVirus email, not processing\nid: m1\n\nmessageId: m1",
          Source := "error@my-ses-email-domain.example.com" }] :=
  ⟨⟨rfl, by decide⟩, by decide, by decide⟩

/-- C6, amended: for a record whose virus verdict is not `"PASS"`, `Handler`
on that record returns `nil` whatever the configured routes are (no routing
rule is evaluated), and so does the body of its record loop in any batch. The
only collaborator call the record can cause is one send, the operator
notification from `error@<domain>` to the space-trimmed
`PrivateAccountMailbox() + "@" + PrivateAccountDomain()`: no publish, no store
read, write or copy, no other send. That send is made, exactly once, when the
MIME library builds and encodes the notification; when it does not, no call is
made at all. -/
theorem virus_gate (lib : Lib) (env : Env σ) (conf : Config) (record : Record) (w : World σ)
    (hv : record.VirusVerdict ≠ "PASS") :
    ∃ w1,
      Handler lib env conf [record] w = (.nil, w1) ∧
      (∀ routes, Handler lib env { conf with Routes := routes } [record] w = (.nil, w1)) ∧
      (∀ routes, (recordBody lib env { conf with Routes := routes } record w).2 = w1) ∧
      (w1 = w ∨
        ∃ data, w1.trace = w.trace ++
          [Call.sendEmail
            { Destinations := [TrimSpace (conf.PrivateAccountMailbox ++ "@" ++
                conf.PrivateAccountDomain)],
              Data := data, Source := "error@" ++ conf.Domain }]) ∧
      (∀ data,
        lib.Build (errorEmailBuilder lib conf "Virus email, not processing" record) = none →
        lib.Encode (errorEmailBuilder lib conf "Virus email, not processing" record) =
          .ok data →
        w1.trace = w.trace ++
          [Call.sendEmail
            { Destinations := [TrimSpace (conf.PrivateAccountMailbox ++ "@" ++
                conf.PrivateAccountDomain)],
              Data := data, Source := "error@" ++ conf.Domain }]) ∧
      ((lib.Build (errorEmailBuilder lib conf "Virus email, not processing" record) ≠ none ∨
          ∃ e, lib.Encode (errorEmailBuilder lib conf "Virus email, not processing" record) =
            .error e) →
        w1 = w) := by
  have hmail : ∀ routes, sendErrorEmail lib env { conf with Routes := routes }
      "Virus email, not processing" record w =
      sendErrorEmail lib env conf "Virus email, not processing" record w := fun _ => rfl
  refine ⟨(sendErrorEmail lib env conf "Virus email, not processing" record w).2,
    ?_, fun routes => ?_, fun routes => ?_, ?_, fun data hb he => ?_, fun hfail => ?_⟩
  · exact recordLoop_ret lib env conf record [] [] w _ _
      (recordBody_virus lib env conf record w hv)
  · rw [← hmail routes]
    exact recordLoop_ret lib env _ record [] [] w _ _
      (recordBody_virus lib env _ record w hv)
  · rw [recordBody_virus lib env _ record w hv, ← hmail routes]
  · rcases sendErrorEmail_trace lib env conf "Virus email, not processing" record w with
      ⟨_, h⟩ | ⟨data, _, _, h⟩
    · exact Or.inl h
    · exact Or.inr ⟨data, h⟩
  · rcases sendErrorEmail_trace lib env conf "Virus email, not processing" record w with
      ⟨h1 | ⟨e, h1⟩, _⟩ | ⟨data2, _, he2, h⟩
    · exact absurd hb h1
    · rw [he] at h1
      cases h1
    · rw [he] at he2
      cases he2
      exact h
  · rcases sendErrorEmail_trace lib env conf "Virus email, not processing" record w with
      ⟨_, h⟩ | ⟨data, hb, he, _⟩
    · exact h
    · rcases hfail with h1 | ⟨e, h1⟩
      · exact absurd hb h1
      · rw [he] at h1
        cases h1

/-- C6 amended, evaluated on the record of `TestLambdaEmail` with virus verdict
`FAIL` and the route of that test configured: `Handler` returns `nil` and the
trace is the one operator notification to the private address. -/
theorem virus_gate_witness :
    (testRecord "m1" "PASS" "PASS" "FAIL").VirusVerdict ≠ "PASS" ∧
    ∃ w1,
      Handler testLib fakeEnv (testConf [testRoute true false false])
        [testRecord "m1" "PASS" "PASS" "FAIL"] (fakeStart testStore ["id1"]) = (.nil, w1) ∧
      w1.trace =
        [Call.sendEmail
          { Destinations := ["foo@gmail.example.com"],
            Data := "From: error@my-ses-email-domain.example.com\nSubject: Lambda Email Error" ++
              "\n\nVirus email, not processing\nid: m1\n\nmessageId: m1",
            Source := "error@my-ses-email-domain.example.com" }] :=
  ⟨by decide,
    match virus_gate testLib fakeEnv (testConf [testRoute true false false])
      (testRecord "m1" "PASS" "PASS" "FAIL") (fakeStart testStore ["id1"]) (by decide) with
    | ⟨w1, hrun, _, _, _, hsend, _⟩ =>
      ⟨w1, hrun, (hsend _ rfl rfl).trans (by decide)⟩⟩

/-! ## Choice of the workflow -/

theorem handleOutbound_run (lib : Lib) (env : Env σ) (conf : Config) (record : Record)
    (w : World σ) :
    (stepOf (handleOutbound lib env conf record w)).1 =
      .next (env.s3CopyObj conf.Bucket.Name
        (lib.PathJoin [conf.Bucket.Name, conf.Bucket.MsgPrefix, record.MessageID])
        (lib.PathJoin [conf.Bucket.OutboxPrefix, record.MessageID]) w.ext).1 ∧
    (stepOf (handleOutbound lib env conf record w)).2.trace = w.trace ++
      [Call.s3CopyObj conf.Bucket.Name
        (lib.PathJoin [conf.Bucket.Name, conf.Bucket.MsgPrefix, record.MessageID])
        (lib.PathJoin [conf.Bucket.OutboxPrefix, record.MessageID])] := by
  unfold handleOutbound callCopyObj
  generalize (env.s3CopyObj conf.Bucket.Name
    (lib.PathJoin [conf.Bucket.Name, conf.Bucket.MsgPrefix, record.MessageID])
    (lib.PathJoin [conf.Bucket.OutboxPrefix, record.MessageID]) w.ext).1 = r
  cases r <;> exact ⟨rfl, rfl⟩

theorem getForwardInfo_trace (lib : Lib) (env : Env σ) (conf : Config) (id : String)
    (w : World σ) :
    (getForwardInfo lib env conf id w).2.trace = w.trace ++
      [Call.s3GetObj conf.Bucket.Name (lib.PathJoin [conf.Bucket.ForwardMetaPrefix, id])] := by
  unfold getForwardInfo callGetObj
  generalize (env.s3GetObj conf.Bucket.Name
    (lib.PathJoin [conf.Bucket.ForwardMetaPrefix, id]) w.ext).1 = r
  cases r <;> rfl

theorem handleReply_ready (lib : Lib) (env : Env σ) (conf : Config) (record : Record)
    (w : World σ) (raw : String) (w1 : World σ) (body : Envelope) (info : forwardInfo)
    (w2 : World σ) (origRaw : String) (w3 : World σ) (origBody : Envelope)
    (replyTo : MailAddress) (data : String)
    (h : replyReady lib env conf record w raw w1 body info w2 origRaw w3 origBody replyTo data) :
    handleReply lib env conf record w =
      match callSendEmail env
          { Destinations := strList [replyTo.Address], Data := data,
            Source := replyLoop lib conf record.Recipients } w3 with
      | (.error err, w4) => (.err ("send email error: " ++ err), w4)
      | (.ok none, w4) => (.panic, w4)
      | (.ok (some _), w4) => (.nil, w4) := by
  obtain ⟨h1, h2, h3, h4, h5, h6, h7, h8, h9, h10⟩ := h
  unfold handleReply
  simp only [h1, if_false, h2, h3, h4, h5]
  unfold replySend
  simp only [h6, h7, h8, h9, h10]

theorem handleReply_ready_trace (lib : Lib) (env : Env σ) (conf : Config) (record : Record)
    (w : World σ) (raw : String) (w1 : World σ) (body : Envelope) (info : forwardInfo)
    (w2 : World σ) (origRaw : String) (w3 : World σ) (origBody : Envelope)
    (replyTo : MailAddress) (data : String)
    (h : replyReady lib env conf record w raw w1 body info w2 origRaw w3 origBody replyTo data) :
    (handleReply lib env conf record w).2.trace = w.trace ++
      [Call.s3GetObj conf.Bucket.Name (lib.PathJoin [conf.Bucket.MsgPrefix, record.MessageID]),
       Call.s3GetObj conf.Bucket.Name (lib.PathJoin [conf.Bucket.ForwardMetaPrefix,
         TrimSuffix (trimBrackets (body.GetHeader "In-Reply-To")) "@email.amazonses.com"]),
       Call.s3GetObj conf.Bucket.Name (lib.PathJoin [conf.Bucket.MsgPrefix, info.SESID]),
       Call.sendEmail
         { Destinations := [TrimSpace replyTo.Address], Data := data,
           Source := replyLoop lib conf record.Recipients }] := by
  have ht1 : w1.trace = w.trace ++ [Call.s3GetObj conf.Bucket.Name
      (lib.PathJoin [conf.Bucket.MsgPrefix, record.MessageID])] :=
    (congrArg (fun r => r.2.trace) h.2.1).symm
  have ht2 : w2.trace = w1.trace ++ [Call.s3GetObj conf.Bucket.Name
      (lib.PathJoin [conf.Bucket.ForwardMetaPrefix,
        TrimSuffix (trimBrackets (body.GetHeader "In-Reply-To")) "@email.amazonses.com"])] := by
    have := getForwardInfo_trace lib env conf
      (TrimSuffix (trimBrackets (body.GetHeader "In-Reply-To")) "@email.amazonses.com") w1
    rw [h.2.2.2.2.1] at this
    exact this
  have ht3 : w3.trace = w2.trace ++ [Call.s3GetObj conf.Bucket.Name
      (lib.PathJoin [conf.Bucket.MsgPrefix, info.SESID])] :=
    (congrArg (fun r => r.2.trace) h.2.2.2.2.2.1).symm
  rw [handleReply_ready lib env conf record w raw w1 body info w2 origRaw w3 origBody replyTo
    data h]
  have hw4 : ∀ w4 : World σ, w4.trace = w3.trace ++
      [Call.sendEmail
        { Destinations := strList [replyTo.Address], Data := data,
          Source := replyLoop lib conf record.Recipients }] →
      w4.trace = w.trace ++
        [Call.s3GetObj conf.Bucket.Name
          (lib.PathJoin [conf.Bucket.MsgPrefix, record.MessageID]),
         Call.s3GetObj conf.Bucket.Name (lib.PathJoin [conf.Bucket.ForwardMetaPrefix,
           TrimSuffix (trimBrackets (body.GetHeader "In-Reply-To")) "@email.amazonses.com"]),
         Call.s3GetObj conf.Bucket.Name (lib.PathJoin [conf.Bucket.MsgPrefix, info.SESID]),
         Call.sendEmail
           { Destinations := [TrimSpace replyTo.Address], Data := data,
             Source := replyLoop lib conf record.Recipients }] := by
    intro w4 h4
    rw [h4, ht3, ht2, ht1]
    simp [strList]
  unfold callSendEmail
  generalize (env.sendEmail
    { Destinations := strList [replyTo.Address], Data := data,
      Source := replyLoop lib conf record.Recipients } w3.ext).1 = r
  cases r with
  | error e => exact hw4 _ rfl
  | ok o => cases o <;> exact hw4 _ rfl

/-- C7: for a record that passes the virus and sender-loop gates and whose rule
evaluation ends without a drop or an abort (in the world `w1`, with the flag
`skip`): `skip` holds exactly when some matched route has `forward = false`;
when it holds no workflow runs and nothing more is called; otherwise exactly
one workflow runs from `w1`. If the parsed sender equals the private address
and some parsed `To` address equals the outbound address it is the outbox
copy: the one call `s3CopyObj` from `bucket/msgPrefix/id` to `outboxPrefix/id`,
whose error, if any, is the record's error. If the sender equals the private
address and no parsed `To` address equals the outbound address it is the reply
relay: when the relay reaches its send, the calls are the three reads and one
send from the proxy recipient to the original correspondent. In every other
case it is the forward to the private mailbox: when the forward reaches its
send, exactly one send is made, to the rewritten private address. -/
theorem one_workflow (lib : Lib) (env : Env σ) (conf : Config) (record : Record)
    (w : World σ) (skip : Bool) (w1 : World σ) (hg : passesGates lib record)
    (hr : ruleLoop lib env conf record conf.Routes false w = (.done skip, w1)) :
    (skip = true ↔
      ∃ rule ∈ conf.Routes, rule.matches lib conf record ∧ rule.Forward = false) ∧
    (skip = true → recordBody lib env conf record w = (.next none, w1)) ∧
    (skip = false →
      (fromAddr lib record = conf.PrivateAccountAddress ∧
          someParsedTo lib record.To (fun a => a = conf.OutboundAddress) →
        recordBody lib env conf record w = stepOf (handleOutbound lib env conf record w1) ∧
        (recordBody lib env conf record w).1 =
          .next (env.s3CopyObj conf.Bucket.Name
            (lib.PathJoin [conf.Bucket.Name, conf.Bucket.MsgPrefix, record.MessageID])
            (lib.PathJoin [conf.Bucket.OutboxPrefix, record.MessageID]) w1.ext).1 ∧
        (recordBody lib env conf record w).2.trace = w1.trace ++
          [Call.s3CopyObj conf.Bucket.Name
            (lib.PathJoin [conf.Bucket.Name, conf.Bucket.MsgPrefix, record.MessageID])
            (lib.PathJoin [conf.Bucket.OutboxPrefix, record.MessageID])]) ∧
      (fromAddr lib record = conf.PrivateAccountAddress ∧
          ¬ someParsedTo lib record.To (fun a => a = conf.OutboundAddress) →
        recordBody lib env conf record w = stepOf (handleReply lib env conf record w1) ∧
        ∀ raw w2 body info w3 origRaw w4 origBody replyTo data,
          replyReady lib env conf record w1 raw w2 body info w3 origRaw w4 origBody replyTo
            data →
          (recordBody lib env conf record w).2.trace = w1.trace ++
            [Call.s3GetObj conf.Bucket.Name
              (lib.PathJoin [conf.Bucket.MsgPrefix, record.MessageID]),
             Call.s3GetObj conf.Bucket.Name (lib.PathJoin [conf.Bucket.ForwardMetaPrefix,
               TrimSuffix (trimBrackets (body.GetHeader "In-Reply-To"))
                 "@email.amazonses.com"]),
             Call.s3GetObj conf.Bucket.Name (lib.PathJoin [conf.Bucket.MsgPrefix, info.SESID]),
             Call.sendEmail
               { Destinations := [TrimSpace replyTo.Address], Data := data,
                 Source := replyLoop lib conf record.Recipients }]) ∧
      (fromAddr lib record ≠ conf.PrivateAccountAddress →
        recordBody lib env conf record w = stepOf (forwardToGmail lib env conf record w1) ∧
        ∀ raw w2 body data, forwardReady lib env conf record w1 raw w2 body data →
          ∃ delta, (recordBody lib env conf record w).2.trace = w1.trace ++ delta ∧
            delta.filter Call.isSend =
              [Call.sendEmail (forwardInput lib conf record data)])) := by
  have hb := recordBody_gates lib env conf record w hg
  rw [hr] at hb
  refine ⟨?_, fun hs => ?_, fun hs => ⟨fun h => ?_, fun h => ?_, fun h => ?_⟩⟩
  · rw [ruleLoop_done_skip lib env conf record conf.Routes false w skip w1 hr]
    simp
  · subst hs
    exact hb
  · subst hs
    have ho := (toOutbound_iff lib conf record).mpr h.2
    have hd : dispatch lib env conf record w1 = handleOutbound lib env conf record w1 := by
      simp [dispatch, h.1, ho]
    have hbody : recordBody lib env conf record w =
        stepOf (handleOutbound lib env conf record w1) := by
      rw [hb]
      dsimp only
      rw [hd]
    refine ⟨hbody, ?_, ?_⟩
    · rw [hbody]
      exact (handleOutbound_run lib env conf record w1).1
    · rw [hbody]
      exact (handleOutbound_run lib env conf record w1).2
  · subst hs
    have ho : toOutbound lib conf record = false := by
      cases hto : toOutbound lib conf record with
      | false => rfl
      | true => exact absurd ((toOutbound_iff lib conf record).mp hto) h.2
    have hd : dispatch lib env conf record w1 = handleReply lib env conf record w1 := by
      simp [dispatch, h.1, ho]
    have hbody : recordBody lib env conf record w =
        stepOf (handleReply lib env conf record w1) := by
      rw [hb]
      dsimp only
      rw [hd]
    refine ⟨hbody, fun raw w2 body info w3 origRaw w4 origBody replyTo data hready => ?_⟩
    rw [hbody, stepOf_world]
    exact handleReply_ready_trace lib env conf record w1 raw w2 body info w3 origRaw w4
      origBody replyTo data hready
  · subst hs
    have hd : dispatch lib env conf record w1 = forwardToGmail lib env conf record w1 := by
      simp [dispatch, h]
    have hbody : recordBody lib env conf record w =
        stepOf (forwardToGmail lib env conf record w1) := by
      rw [hb]
      dsimp only
      rw [hd]
    refine ⟨hbody, fun raw w2 body data hready => ?_⟩
    rw [hbody, stepOf_world]
    exact forwardToGmail_ready_trace lib env conf record w1 raw w2 body data hready

set_option maxRecDepth 20000 in
/-- C7, evaluated on three records that pass the gates with no route
configured or with the route of `TestLambdaEmail`. A message of the private
account to the outbound address causes the one call `s3CopyObj`, after which
the store holds the message under the outbox prefix. A reply of the private
account to a forwarded copy causes three reads and one send from the proxy
address to the original correspondent. A message of an external sender is
forwarded with exactly one send, to the rewritten private address. -/
theorem one_workflow_witness :
    (passesGates testLib outboundRecord ∧
      (recordBody testLib fakeEnv (testConf []) outboundRecord
          (fakeStart testStore ["id1"])).1 = .next none ∧
      (recordBody testLib fakeEnv (testConf []) outboundRecord
          (fakeStart testStore ["id1"])).2.trace =
        [Call.s3CopyObj "westerly-tapir" "westerly-tapir//periphery-corollas/m1"
          "/outbox/m1"] ∧
      fakeLookup ("westerly-tapir", "/outbox/m1")
          (recordBody testLib fakeEnv (testConf []) outboundRecord
            (fakeStart testStore ["id1"])).2.ext.fakeS3 = some "hello") ∧
    (passesGates mimeLib replyRecord ∧
      (recordBody mimeLib fakeEnv (testConf []) replyRecord
          (fakeStart replyStore ["id2"])).2.trace =
        [Call.s3GetObj "westerly-tapir" "/periphery-corollas/m2",
         Call.s3GetObj "westerly-tapir" "/Voldemort-wearily/id1",
         Call.s3GetObj "westerly-tapir" "/periphery-corollas/m1",
         Call.sendEmail
           { Destinations := ["psanford@example.com"],
             Data := "From: test@my-ses-email-domain.example.com\nTo: psanford@example.com" ++
               "\nSubject: Re: test subject\nIn-Reply-To: <id1@email.amazonses.com>" ++
               "\nReferences: <id1@email.amazonses.com>\n\nthanks",
             Source := "test@my-ses-email-domain.example.com" }]) ∧
    (passesGates testLib (testRecord "m1" "PASS" "PASS" "PASS") ∧
      ∃ delta,
        (recordBody testLib fakeEnv (testConf [testRoute true false false])
            (testRecord "m1" "PASS" "PASS" "PASS") (fakeStart testStore ["id1"])).2.trace =
          (ruleLoop testLib fakeEnv (testConf [testRoute true false false])
            (testRecord "m1" "PASS" "PASS" "PASS") [testRoute true false false] false
            (fakeStart testStore ["id1"])).2.trace ++ delta ∧
        delta.filter Call.isSend =
          [Call.sendEmail
            { Destinations := ["foo+test@gmail.example.com"],
              Data := "From: test@my-ses-email-domain.example.com\nSubject: test subject" ++
                "\n\nhello",
              Source := "test@my-ses-email-domain.example.com" }]) :=
  ⟨⟨⟨rfl, by decide⟩,
      ((((one_workflow testLib fakeEnv (testConf []) outboundRecord
        (fakeStart testStore ["id1"]) false _ ⟨rfl, by decide⟩ rfl).2.2 rfl).1
        ⟨by decide, (toOutbound_iff _ _ _).mp (by decide)⟩).2.1).trans (by decide),
      ((((one_workflow testLib fakeEnv (testConf []) outboundRecord
        (fakeStart testStore ["id1"]) false _ ⟨rfl, by decide⟩ rfl).2.2 rfl).1
        ⟨by decide, (toOutbound_iff _ _ _).mp (by decide)⟩).2.2).trans (by decide),
      by decide⟩,
    ⟨⟨rfl, by decide⟩,
      (((((one_workflow mimeLib fakeEnv (testConf []) replyRecord
        (fakeStart replyStore ["id2"]) false _ ⟨rfl, by decide⟩ rfl).2.2 rfl).2.1
        ⟨by decide, fun h => absurd ((toOutbound_iff _ _ _).mpr h) (by decide)⟩).2
        rawReply _ (mimeRead rawReply)
        ⟨"5B762F46B550CE2BAB51989E4F9F1280@mail.gmail.com", "m1", "id1"⟩ _ rawOriginal _
        (mimeRead rawOriginal) ⟨"Peter Sanford", "psanford@example.com"⟩
        ("From: test@my-ses-email-domain.example.com\nTo: psanford@example.com" ++
          "\nSubject: Re: test subject\nIn-Reply-To: <id1@email.amazonses.com>" ++
          "\nReferences: <id1@email.amazonses.com>\n\nthanks")
        ⟨by decide, rfl, rfl, by decide, rfl, rfl, rfl, rfl, rfl, rfl⟩).trans (by decide))⟩,
    ⟨⟨rfl, by decide⟩,
      match ((((one_workflow testLib fakeEnv (testConf [testRoute true false false])
        (testRecord "m1" "PASS" "PASS" "PASS") (fakeStart testStore ["id1"]) false _
        ⟨rfl, by decide⟩ rfl).2.2 rfl).2.2 (by decide)).2 "hello" _
        { Text := "hello", HTML := "", Attachments := [], Inlines := [], OtherParts := [],
          GetHeader := fun _ => "" }
        ("From: test@my-ses-email-domain.example.com\nSubject: test subject" ++ "\n\nhello")
        ⟨by decide, rfl, rfl, rfl, rfl⟩) with
      | ⟨delta, h1, h2⟩ => ⟨delta, h1, h2.trans (by decide)⟩⟩⟩

end LambdaEmail
